import Mathlib

/-!
Verification of the learning and knowledge-coordination layer of the
deployment-automation repository.  The definitions below are a shallow
embedding of `src/factory/factory_config.py` (PatternLearningSystem and
ContinuousImprovementEngine) and `src/factory/inter_agent_learning_system.py`
(InterAgentLearningCoordinator).  Python floats are modelled by `Rat`,
timestamps by `Rat` seconds, Python dicts keyed by strings by total functions
with `[]` as the defaultdict default or by association lists where the key
set matters.
-/

namespace Factory

/-- Python values as they may appear in the `deployment_data` dict fields
`error_type` and `success` (the code checks `isinstance`). -/
inductive PyVal where
  | vStr (s : String)
  | vBool (b : Bool)
  | vOther
deriving DecidableEq, Repr

/-- One learning entry as built by `learn_from_deployment`:
`{'solution', 'success', 'timestamp', 'context', 'execution_time'}`.
`solution` is `deployment_data.get('solution')`, so possibly absent (None).
The `context` dict is irrelevant to every ranking computation and omitted. -/
structure Pattern where
  solution : Option String
  success : Bool
  timestamp : Rat
  execTime : Option Rat
deriving DecidableEq, Repr

/-- State of `PatternLearningSystem`: two defaultdict(list) stores and the
per-key performance deques (lengths only matter to no claim, values kept). -/
structure PLS where
  error_database : String → List Pattern
  success_patterns : String → List Pattern
  performance_metrics : String → List Rat
deriving Inhabited

def emptyPLS : PLS :=
  { error_database := fun _ => []
    success_patterns := fun _ => []
    performance_metrics := fun _ => [] }

/-- `max_patterns_per_error` in `PatternLearningSystem.__init__`. -/
def MAX_RECORDS : Nat := 50

/-- `_store_success_pattern` / `_store_error_pattern` body: if the per-key
list has reached the cap, `pop(0)` the oldest, then `append`. -/
def storePattern (l : List Pattern) (e : Pattern) : List Pattern :=
  (if l.length ≥ MAX_RECORDS then l.tail else l) ++ [e]

/-- `_store_success_pattern`. -/
def store_success_pattern (s : PLS) (k : String) (e : Pattern) : PLS :=
  { s with success_patterns := fun k2 =>
      if k2 = k then storePattern (s.success_patterns k) e else s.success_patterns k2 }

/-- `_store_error_pattern`. -/
def store_error_pattern (s : PLS) (k : String) (e : Pattern) : PLS :=
  { s with error_database := fun k2 =>
      if k2 = k then storePattern (s.error_database k) e else s.error_database k2 }

/-- The `performance_metrics[...].append(execution_time)` step. -/
def record_performance (s : PLS) (k : String) (t : Rat) : PLS :=
  { s with performance_metrics := fun k2 =>
      if k2 = k then s.performance_metrics k ++ [t] else s.performance_metrics k2 }

/-- The `deployment_data` dict passed to `learn_from_deployment`.
`error_type` and `success` are `Option PyVal` because the code first checks
key presence and then `isinstance`; the remaining fields are read with
`.get` defaults and their Python types are fixed by the callers. -/
structure DeploymentData where
  error_type : Option PyVal
  solution : Option String
  success : Option PyVal
  timestamp : Rat
  execTime : Option Rat
deriving DecidableEq, Repr

/-- Python `str.strip()` as used by the `error_type.strip()` emptiness
check: drop whitespace from both ends (computed on the character list). -/
def pyStrip (s : String) : List Char :=
  ((s.toList.dropWhile Char.isWhitespace).reverse.dropWhile Char.isWhitespace).reverse

/-- `PatternLearningSystem.learn_from_deployment`: validates the required
fields (`error_type` present, a non-blank string; `success` present, a bool),
returns `False` with no mutation otherwise; on success stores one entry in
the success or error store for the key and appends to the per-key
performance deque when an execution time is present. -/
def learn_from_deployment (s : PLS) (d : DeploymentData) : Bool × PLS :=
  match d.error_type, d.success with
  | some (PyVal.vStr et), some (PyVal.vBool b) =>
      if pyStrip et = [] then (false, s)
      else
        let entry : Pattern :=
          { solution := d.solution, success := b, timestamp := d.timestamp
            execTime := d.execTime }
        let s1 :=
          if b then store_success_pattern s et entry
          else store_error_pattern s et entry
        let s2 :=
          match d.execTime with
          | some t =>
              record_performance s1 (if b then et ++ "_success" else et ++ "_failure") t
          | none => s1
        (true, s2)
  | _, _ => (false, s)

/-- `_calculate_solution_stats` skips entries whose solution is falsy or the
literal `"unknown"`; this returns the solution when it is counted. -/
def validSol (e : Pattern) : Option String :=
  match e.solution with
  | some s => if s = "" ∨ s = "unknown" then none else some s
  | none => none

/-- Accumulated per-solution statistics (`solution_stats[solution]`). -/
structure SolStats where
  count : Nat
  success_count : Nat
  total_execution_time : Rat
  recent_count : Nat
deriving DecidableEq, Repr

/-- Thirty days in seconds: `timedelta(days=30)` for the recency cutoff. -/
def THIRTY_DAYS : Rat := 2592000

/-- One iteration of the `for pattern in patterns` loop of
`_calculate_solution_stats`, restricted to one solution key of the stats
dict.  Python's `if pattern.get('execution_time'):` skips falsy values,
i.e. `None` and `0`; adding `0` is equivalent, so the sum uses `getD 0`. -/
def statsStep (now : Rat) (sol : String) (st : SolStats) (p : Pattern) : SolStats :=
  match validSol p with
  | some s =>
      if s = sol then
        { count := st.count + 1
          success_count := st.success_count + (if p.success then 1 else 0)
          total_execution_time := st.total_execution_time + p.execTime.getD 0
          recent_count :=
            st.recent_count + (if now - THIRTY_DAYS < p.timestamp then 1 else 0) }
      else st
  | none => st

/-- The accumulated statistics of one solution over the key's patterns. -/
def statsFor (now : Rat) (pats : List Pattern) (sol : String) : SolStats :=
  pats.foldl (statsStep now sol) ⟨0, 0, 0, 0⟩

/-- The key set of the `solution_stats` dict in insertion order: first
occurrence of each countable solution. -/
def solutionKeys (pats : List Pattern) : List String :=
  (pats.filterMap validSol).eraseDups

/-- `stats['success_rate'] = success_count / count`. -/
def successRate (st : SolStats) : Rat := (st.success_count : Rat) / (st.count : Rat)

/-- `stats['recency_score'] = min(recent_count / max(count, 1), 1.0)`. -/
def recencyScore (st : SolStats) : Rat :=
  min ((st.recent_count : Rat) / (max st.count 1 : Nat)) 1

/-- `stats['avg_execution_time'] = total_execution_time / count`. -/
def avgExecTime (st : SolStats) : Rat := st.total_execution_time / (st.count : Rat)

/-- `_select_best_solution` per-candidate score:
`success_rate*0.6 + recency_score*0.3 + max(0, 1 - avg_time/3600)*0.1`. -/
def compositeScore (st : SolStats) : Rat :=
  successRate st * (6/10) + recencyScore st * (3/10) +
    max 0 (1 - avgExecTime st / 3600) * (1/10)

/-- Head of the list stably sorted descending by score
(`scored_solutions.sort(key=..., reverse=True); scored_solutions[0]`):
the earliest element attaining the maximal score. -/
def selectTop (f : String → Rat) : List String → Option String
  | [] => none
  | x :: xs => some (xs.foldl (fun b a => if f b < f a then a else b) x)

/-- `min_success_rate` in `PatternLearningSystem.__init__`. -/
def MIN_SUCCESS_RATE : Rat := 7/10

/-- `PatternLearningSystem.suggest_solution`: no history for the key gives
`None`; otherwise the error and success patterns are combined, per-solution
stats computed, the top composite-score solution selected, and it is
returned only when its success rate reaches `min_success_rate`. -/
def suggest_solution (s : PLS) (now : Rat) (key : String) : Option String :=
  if s.error_database key = [] ∧ s.success_patterns key = [] then none
  else
    let pats := s.error_database key ++ s.success_patterns key
    match selectTop (fun sol => compositeScore (statsFor now pats sol)) (solutionKeys pats) with
    | none => none
    | some best =>
        if MIN_SUCCESS_RATE ≤ successRate (statsFor now pats best) then some best
        else none

/-! ## ContinuousImprovementEngine (`factory_config.py`) -/

/-- `RiskLevel` enum. -/
inductive RiskLevel where
  | low | medium | high | critical
deriving DecidableEq, Repr

/-- `OptimizationType` enum. -/
inductive OptimizationType where
  | performance | memory | reliability | security
deriving DecidableEq, Repr

/-- A suggestion dict as produced by `generate_optimization_suggestions`.
`otype = none` models a `type` value that is not an `OptimizationType`
instance, which makes `apply_improvement` return `False`. -/
structure Suggestion where
  otype : Option OptimizationType
  title : String
  risk : RiskLevel
  confidence : Rat
deriving DecidableEq, Repr

/-- A `log_entry` appended by `log_improvement` to `applied_improvements`. -/
structure AppliedEntry where
  timestamp : Rat
  title : String
  otype : OptimizationType
  risk : RiskLevel
  confidence : Rat
deriving DecidableEq, Repr

/-- An entry of `performance_history` (only `response_time` and `success`
are ever read back). -/
structure PerfEntry where
  response_time : Rat
  success : Bool
deriving DecidableEq, Repr

/-- Mutable state of `ContinuousImprovementEngine`.  `improvement_log`
entries are analysis snapshots never read back except for their count, so
they are kept as a length. -/
structure CIEngine where
  improvement_log_len : Nat
  optimization_suggestions : List Suggestion
  applied_improvements : List AppliedEntry
  performance_history : List PerfEntry
deriving DecidableEq, Repr

def emptyCIEngine : CIEngine :=
  { improvement_log_len := 0
    optimization_suggestions := []
    applied_improvements := []
    performance_history := [] }

/-- `_apply_memory_optimization`: trims `performance_history` to its last
500 entries when above 800, else trims `improvement_log` to its last 50
when above 100; always reports success. -/
def applyMemoryOptimization (s : CIEngine) : CIEngine :=
  if 800 < s.performance_history.length then
    { s with performance_history :=
        s.performance_history.drop (s.performance_history.length - 500) }
  else if 100 < s.improvement_log_len then
    { s with improvement_log_len := 50 }
  else s

/-- `apply_improvement`: fails on a non-enum `type`; dispatches by type
(only the memory branch changes state); all branches report success. -/
def apply_improvement (s : CIEngine) (sug : Suggestion) : Bool × CIEngine :=
  match sug.otype with
  | none => (false, s)
  | some OptimizationType.memory => (true, applyMemoryOptimization s)
  | some _ => (true, s)

/-- `log_improvement`: appends the applied entry, then keeps only the last
100 entries when the log exceeds 100.  The entry derivation dereferences
`suggestion['type'].value`, so a non-enum type raises inside the guarded
body and nothing is appended. -/
def log_improvement (s : CIEngine) (now : Rat) (sug : Suggestion) : CIEngine :=
  match sug.otype with
  | none => s
  | some ot =>
      let l := s.applied_improvements ++
        [{ timestamp := now, title := sug.title, otype := ot, risk := sug.risk
           confidence := sug.confidence }]
      { s with applied_improvements :=
          if 100 < l.length then l.drop (l.length - 100) else l }

/-- Result counters of `implement_improvements`; `details` keeps the
`(title, success)` pairs appended per processed suggestion. -/
structure ImplResults where
  implemented : Nat
  skipped : Nat
  failed : Nat
  details : List (String × Bool)
deriving DecidableEq, Repr

/-- Loop body of `implement_improvements` for one low-risk suggestion:
apply; on success count it, log it and remove it (first occurrence) from
the backlog; on failure count the failure; record the detail either way. -/
def implStep (now : Rat) (acc : CIEngine × ImplResults) (sug : Suggestion) :
    CIEngine × ImplResults :=
  let (s, r) := acc
  let (ok, s1) := apply_improvement s sug
  if ok then
    let s2 := log_improvement s1 now sug
    let s3 := { s2 with optimization_suggestions :=
        s2.optimization_suggestions.erase sug }
    (s3, { r with implemented := r.implemented + 1
                  details := r.details ++ [(sug.title, true)] })
  else
    (s1, { r with failed := r.failed + 1
                  details := r.details ++ [(sug.title, false)] })

/-- `implement_improvements`: filter the backlog to `risk == LOW`, process
at most the first 5, then the trailing cleanup loop erases the first
`implemented` low-risk suggestions once more (`if suggestion in list:
remove`, a no-op for those already removed). -/
def implement_improvements (s : CIEngine) (now : Rat) : CIEngine × ImplResults :=
  let low := s.optimization_suggestions.filter (fun x => x.risk = RiskLevel.low)
  let (s1, r) := (low.take 5).foldl (implStep now)
    (s, { implemented := 0, skipped := 0, failed := 0, details := [] })
  let s2 := (low.take r.implemented).foldl
    (fun st sug => { st with optimization_suggestions :=
        st.optimization_suggestions.erase sug }) s1
  (s2, r)

/-- Metric readings consumed by `generate_optimization_suggestions`: each
probe of `collect_metrics` may be absent. -/
structure MetricsIn where
  rss_mb : Option Rat
  avg_response : Option Rat
  recent_error_rate : Option Rat
deriving DecidableEq, Repr

/-- The fixed suggestion built for high memory usage. -/
def memorySuggestion : Suggestion :=
  { otype := some OptimizationType.memory, title := "High Memory Usage Detected"
    risk := RiskLevel.medium, confidence := 8/10 }

/-- The fixed suggestion built for slow responses. -/
def performanceSuggestion : Suggestion :=
  { otype := some OptimizationType.performance, title := "Slow Response Times"
    risk := RiskLevel.low, confidence := 7/10 }

/-- The fixed suggestion built for a high error rate. -/
def reliabilitySuggestion : Suggestion :=
  { otype := some OptimizationType.reliability, title := "High Error Rate"
    risk := RiskLevel.high, confidence := 9/10 }

/-- The fixed backlog-cleanup suggestion. -/
def cleanupSuggestion : Suggestion :=
  { otype := some OptimizationType.memory, title := "Suggestion Cleanup"
    risk := RiskLevel.low, confidence := 6/10 }

/-- `generate_optimization_suggestions`: rule-generated suggestions are
returned and also extended onto the backlog; no rule ever trims it. -/
def generate_optimization_suggestions (s : CIEngine) (m : MetricsIn) :
    List Suggestion × CIEngine :=
  let l1 := match m.rss_mb with
    | some x => if 500 < x then [memorySuggestion] else []
    | none => []
  let l2 := match m.avg_response with
    | some x => if 30 < x then [performanceSuggestion] else []
    | none => []
  let l3 := match m.recent_error_rate with
    | some x => if 1/10 < x then [reliabilitySuggestion] else []
    | none => []
  let l4 := if 10 < s.optimization_suggestions.length then [cleanupSuggestion] else []
  let sugs := l1 ++ l2 ++ l3 ++ l4
  (sugs, { s with optimization_suggestions := s.optimization_suggestions ++ sugs })

/-! ## InterAgentLearningCoordinator (`inter_agent_learning_system.py`) -/

/-- `AgentCapability` enum. -/
inductive AgentCapability where
  | code_generation | code_review | testing | debugging
  | deployment | monitoring | security_scanning | performance_optimization
deriving DecidableEq, Repr

/-- `.value` of the capability enum. -/
def AgentCapability.value : AgentCapability → String
  | .code_generation => "code_generation"
  | .code_review => "code_review"
  | .testing => "testing"
  | .debugging => "debugging"
  | .deployment => "deployment"
  | .monitoring => "monitoring"
  | .security_scanning => "security_scanning"
  | .performance_optimization => "performance_optimization"

/-- The keys of an experience's context dict that `_summarize_context`
reads (rendered values; absent key = `none`). -/
structure CtxDict where
  task_type : Option String
  complexity : Option String
  domain : Option String
deriving DecidableEq, Repr

/-- A `LearningExperience` as stored in the coordinator.  The context dict
is carried in its two read-views: `contextStr` is its string rendering,
which is what `_find_relevant_agents` substring-matches against, and `ctx`
holds the keys `_summarize_context` reads; the fields never read by
modelled code (`agent_type`, `learning_type`, `outcome`, `lessons_learned`,
`metadata`) are omitted. -/
structure Experience where
  experience_id : Nat
  agent_id : String
  capability : AgentCapability
  contextStr : String
  ctx : CtxDict
  success : Bool
  confidence : Rat
  timestamp : Rat
deriving DecidableEq, Repr

/-- `AgentProfile` dataclass. -/
structure AgentProfile where
  agent_id : String
  agent_type : String
  capabilities : List AgentCapability
  experience_count : Nat
  success_rate : Rat
  average_confidence : Rat
  specializations : List String
  collaboration_history : List String
  last_active : Rat
  reputation_score : Rat
deriving DecidableEq, Repr

/-- `KnowledgeTransfer` dataclass; uuid ids are modelled by naturals drawn
from a counter.  For transfers created by `share_learning_experience` the
content is a knowledge summary holding no experience records, modelled as
`[]`; for `request_knowledge_transfer` it holds the snapshot experiences. -/
structure KnowledgeTransfer where
  transfer_id : Nat
  from_agent : String
  to_agent : String
  knowledge_type : AgentCapability
  content : List Experience
  confidence : Rat
  timestamp : Rat
  status : String
deriving DecidableEq, Repr

/-- The `learning_metrics` counter dict. -/
structure LearningMetrics where
  total_experiences : Nat
  successful_transfers : Nat
  failed_transfers : Nat
  collaboration_count : Nat
  knowledge_base_size : Nat
deriving DecidableEq, Repr

/-- State of `InterAgentLearningCoordinator` (pure in-memory mode; the Redis
mirror writes are best-effort copies of this state).  Dicts keyed by id are
association lists in insertion order; `collaboration_network` is a
`defaultdict(list)`.  `next_id` models the uuid4 source. -/
structure Coordinator where
  agent_profiles : List (String × AgentProfile)
  learning_experiences : List Experience
  knowledge_transfers : List (Nat × KnowledgeTransfer)
  active_agents : List String
  collaboration_network : String → List String
  learning_metrics : LearningMetrics
  next_id : Nat

def emptyCoordinator : Coordinator :=
  { agent_profiles := []
    learning_experiences := []
    knowledge_transfers := []
    active_agents := []
    collaboration_network := fun _ => []
    learning_metrics := ⟨0, 0, 0, 0, 0⟩
    next_id := 0 }

/-- Python dict assignment: overwrite in place if the key exists, else
append. -/
def insertAssoc {α β : Type} [DecidableEq α] (l : List (α × β)) (k : α) (v : β) :
    List (α × β) :=
  if l.any (fun kv => kv.1 = k) then
    l.map (fun kv => if kv.1 = k then (k, v) else kv)
  else l ++ [(k, v)]

/-- Python dict `get`. -/
def lookupAssoc {α β : Type} [DecidableEq α] (l : List (α × β)) (k : α) : Option β :=
  (l.find? (fun kv => kv.1 = k)).map (fun kv => kv.2)

/-- `register_agent`: fresh profile with neutral reputation `0.5`. -/
def register_agent (c : Coordinator) (now : Rat) (aid atype : String)
    (caps : List AgentCapability) : AgentProfile × Coordinator :=
  let p : AgentProfile :=
    { agent_id := aid, agent_type := atype, capabilities := caps
      experience_count := 0, success_rate := 0, average_confidence := 0
      specializations := [], collaboration_history := [], last_active := now
      reputation_score := 1/2 }
  (p, { c with
        agent_profiles := insertAssoc c.agent_profiles aid p
        active_agents :=
          if aid ∈ c.active_agents then c.active_agents else c.active_agents ++ [aid] })

/-- The deque `learning_experiences = deque(maxlen=10000)`: appending at
capacity drops the oldest entry. -/
def pushExperience (l : List Experience) (e : Experience) : List Experience :=
  (if 10000 ≤ l.length then l.tail else l) ++ [e]

/-- `_update_agent_profile` effect on one profile: increment the count,
refresh `last_active`, set rate and confidence directly on the first
experience and by EMA with `alpha = 0.3` afterwards, clamp the reputation
boost into `[0,1]`, and add a specialization on a confident success. -/
def updateProfileExp (now : Rat) (e : Experience) (p : AgentProfile) : AgentProfile :=
  let count := p.experience_count + 1
  let sObs : Rat := if e.success then 1 else 0
  let sr := if count = 1 then sObs
            else (1 - 3/10) * p.success_rate + (3/10) * sObs
  let ac := if count = 1 then e.confidence
            else (1 - 3/10) * p.average_confidence + (3/10) * e.confidence
  let boost := e.confidence * (if e.success then 1 else -(1/2))
  let rep := min 1 (max 0 (p.reputation_score + boost * (1/10)))
  let specs :=
    if e.success ∧ 8/10 < e.confidence ∧ e.capability.value ∉ p.specializations
    then p.specializations ++ [e.capability.value] else p.specializations
  { p with experience_count := count, last_active := now, success_rate := sr
           average_confidence := ac, reputation_score := rep
           specializations := specs }

/-- Overwrite the value stored under one key of an association list
(Python's in-place mutation of the object held in a dict). -/
def updAssoc {α β : Type} [DecidableEq α] (l : List (α × β)) (k : α) (f : β → β) :
    List (α × β) :=
  l.map (fun kv => if kv.1 = k then (kv.1, f kv.2) else kv)

/-- Apply a profile transformation at one id (identity when, as in
`_update_agent_profile`'s early return, the agent is not registered). -/
def mapProfileAt (c : Coordinator) (aid : String) (f : AgentProfile → AgentProfile) :
    Coordinator :=
  { c with agent_profiles := updAssoc c.agent_profiles aid f }

/-- Case-insensitive substring test (`needle.lower() in hay.lower()`),
computed on the character lists. -/
def strContainsCI (hay needle : String) : Bool :=
  ((hay.toList.map Char.toLower).tails).any
    (fun t => (needle.toList.map Char.toLower).isPrefixOf t)

/-- `_find_relevant_agents`: every non-author agent that shares the
capability, or has a specialization occurring in the context string, or has
the author in its collaboration list; first five in profile order. -/
def find_relevant_agents (c : Coordinator) (e : Experience) : List String :=
  ((c.agent_profiles.filter (fun ap =>
      ap.1 ≠ e.agent_id ∧
        (e.capability ∈ ap.2.capabilities ∨
          ap.2.specializations.any (fun sp => strContainsCI e.contextStr sp) = true ∨
          e.agent_id ∈ c.collaboration_network ap.1))).map (fun ap => ap.1)).take 5

/-- One pending transfer created inside `share_learning_experience`'s
sharing loop, together with the collaboration-network append. -/
def addPendingTransfer (c : Coordinator) (now : Rat) (e : Experience)
    (toA : String) : Coordinator :=
  let t : KnowledgeTransfer :=
    { transfer_id := c.next_id, from_agent := e.agent_id, to_agent := toA
      knowledge_type := e.capability, content := [], confidence := e.confidence
      timestamp := now, status := "pending" }
  { c with
    knowledge_transfers := insertAssoc c.knowledge_transfers c.next_id t
    next_id := c.next_id + 1
    collaboration_network := fun k =>
      if k = e.agent_id then c.collaboration_network k ++ [toA]
      else c.collaboration_network k }

/-- `share_learning_experience`: append to the bounded experience deque,
update the author's profile, create pending transfers to the relevant
agents, update the metric counters; reports `True`. -/
def share_learning_experience (c : Coordinator) (now : Rat) (e : Experience) :
    Bool × Coordinator :=
  let c1 := { c with learning_experiences := pushExperience c.learning_experiences e }
  let c2 := mapProfileAt c1 e.agent_id (updateProfileExp now e)
  let rel := find_relevant_agents c2 e
  let c3 := rel.foldl
    (fun st aid => if aid = e.agent_id then st else addPendingTransfer st now e aid) c2
  (true, { c3 with learning_metrics :=
      { c3.learning_metrics with
        total_experiences := c3.learning_metrics.total_experiences + 1
        knowledge_base_size := c3.learning_experiences.length } })

/-- Candidate filter of `request_knowledge_transfer`: the source agent's
successful experiences for the capability with confidence above `0.7`. -/
def requestCandidates (c : Coordinator) (fromA : String) (cap : AgentCapability) :
    List Experience :=
  c.learning_experiences.filter (fun e =>
    e.agent_id = fromA ∧ e.capability = cap ∧ e.success = true ∧ (7 : Rat)/10 < e.confidence)

/-- `request_knowledge_transfer`: `None` when the source has no qualifying
experiences; otherwise a pending transfer whose confidence is the mean of
the qualifying confidences and whose content is their last three. -/
def request_knowledge_transfer (c : Coordinator) (now : Rat) (fromA toA : String)
    (cap : AgentCapability) : Option Nat × Coordinator :=
  let rel := requestCandidates c fromA cap
  if rel = [] then (none, c)
  else
    let t : KnowledgeTransfer :=
      { transfer_id := c.next_id, from_agent := fromA, to_agent := toA
        knowledge_type := cap, content := rel.drop (rel.length - 3)
        confidence := (rel.map (fun e => e.confidence)).sum / (rel.length : Rat)
        timestamp := now, status := "pending" }
    (some c.next_id,
     { c with
       knowledge_transfers := insertAssoc c.knowledge_transfers c.next_id t
       next_id := c.next_id + 1
       collaboration_network := fun k =>
         if k = fromA ∧ toA ∉ c.collaboration_network fromA
         then c.collaboration_network k ++ [toA]
         else c.collaboration_network k })

/-- Overwrite the status of the transfer object held under an id. -/
def setTransferStatus (ts : List (Nat × KnowledgeTransfer)) (tid : Nat)
    (st : String) : List (Nat × KnowledgeTransfer) :=
  updAssoc ts tid (fun t => { t with status := st })

/-- `_apply_knowledge_to_agent`: when the receiver is registered, add the
capability and specialization if missing and raise the reputation by `0.05`
capped at `1.0`; silently does nothing for an unregistered receiver. -/
def apply_knowledge_to_agent (c : Coordinator) (t : KnowledgeTransfer) : Coordinator :=
  mapProfileAt c t.to_agent (fun p =>
    { p with
      capabilities :=
        if t.knowledge_type ∈ p.capabilities then p.capabilities
        else p.capabilities ++ [t.knowledge_type]
      specializations :=
        if t.knowledge_type.value ∈ p.specializations then p.specializations
        else p.specializations ++ [t.knowledge_type.value]
      reputation_score := min 1 (p.reputation_score + 1/20) })

/-- The string rendering of the meta-experience context built by
`_learn_from_transfer_success` (dict quoting elided; it preserves the
substrings that `_find_relevant_agents` matches specializations against). -/
def metaContext (t : KnowledgeTransfer) : String :=
  "\x7btransfer_type: knowledge_sharing, target_agent: " ++ t.to_agent ++
    ", knowledge_type: " ++ t.knowledge_type.value ++ "\x7d"

/-- The meta-experience `_learn_from_transfer_success` builds about a
successful transfer (its uuid drawn from the id counter). -/
def metaExp (c : Coordinator) (now : Rat) (t : KnowledgeTransfer) : Experience :=
  { experience_id := c.next_id, agent_id := t.from_agent
    capability := t.knowledge_type, contextStr := metaContext t
    ctx := ⟨none, none, none⟩
    success := true, confidence := t.confidence, timestamp := now }

/-- `_learn_from_transfer_success`: share a fresh successful meta-experience
authored by the sending agent at the transfer's confidence. -/
def learn_from_transfer_success (c : Coordinator) (now : Rat)
    (t : KnowledgeTransfer) : Coordinator :=
  (share_learning_experience { c with next_id := c.next_id + 1 } now (metaExp c now t)).2

/-- `process_knowledge_transfer`: unknown id gives `False`; otherwise the
status is overwritten with `accepted` or `rejected` according to the flag —
with no check of the current status — and on accept the knowledge is applied
to the receiver and a meta-experience is shared; reports `True`. -/
def process_knowledge_transfer (c : Coordinator) (now : Rat) (tid : Nat)
    (accept : Bool) : Bool × Coordinator :=
  match lookupAssoc c.knowledge_transfers tid with
  | none => (false, c)
  | some t =>
      if accept then
        let t1 := { t with status := "accepted" }
        let c1 := { c with knowledge_transfers :=
            setTransferStatus c.knowledge_transfers tid "accepted" }
        let c2 := apply_knowledge_to_agent c1 t1
        let c3 := learn_from_transfer_success c2 now t1
        (true, { c3 with learning_metrics :=
            { c3.learning_metrics with
              successful_transfers := c3.learning_metrics.successful_transfers + 1 } })
      else
        let c1 := { c with knowledge_transfers :=
            setTransferStatus c.knowledge_transfers tid "rejected" }
        (true, { c1 with learning_metrics :=
            { c1.learning_metrics with
              failed_transfers := c1.learning_metrics.failed_transfers + 1 } })

/-- `_summarize_context`: join the rendered context keys, or the fixed
fallback text when none is present. -/
def summarizeContext (ctx : CtxDict) : String :=
  let key_elements :=
    (match ctx.task_type with | some t => ["Task: " ++ t] | none => []) ++
    (match ctx.complexity with | some t => ["Complexity: " ++ t] | none => []) ++
    (match ctx.domain with | some t => ["Domain: " ++ t] | none => [])
  if key_elements = [] then "General context" else String.intercalate " | " key_elements

/-- Stable insertion step for a descending sort by key: an element moves
past everything with a strictly greater key and stops before the first
element whose key it matches or exceeds, so equal-key elements keep their
original order — the behaviour of Python's stable `sorted(..., reverse=True)`. -/
def insertDescBy {α β : Type} [LinearOrder β] (f : α → β) (x : α) :
    List α → List α
  | [] => [x]
  | y :: ys => if f y ≤ f x then x :: y :: ys else y :: insertDescBy f x ys

/-- Stable descending sort by key (`sorted(key=..., reverse=True)`). -/
def sortDescBy {α β : Type} [LinearOrder β] (f : α → β) : List α → List α
  | [] => []
  | x :: xs => insertDescBy f x (sortDescBy f xs)

/-- A recommendation dict as built by `get_agent_recommendations`;
`recommended_agent` is `none` for the pattern-based kind, whose dict has no
such key. -/
structure Recommendation where
  rtype : String
  recommended_agent : Option String
  capability : String
  confidence : Rat
  reason : String
  suggested_action : String
deriving DecidableEq, Repr

/-- `_get_pattern_recommendations`: with at least 3 successful experiences
for the capability, count the context summaries (dict keys in first-
occurrence order), take the top 3 by count (stable descending sort), and
recommend each pattern seen at least twice.  The source also tallies
`common_lessons` into `top_lessons`, which it never reads afterwards, so
that dead computation is not carried here. -/
def get_pattern_recommendations (c : Coordinator) (_agent_id : String)
    (capability : AgentCapability) : List Recommendation :=
  let successful := c.learning_experiences.filter (fun e =>
    e.capability = capability ∧ e.success = true)
  if 3 ≤ successful.length then
    let summaries := successful.map (fun e => summarizeContext e.ctx)
    let counted := summaries.eraseDups.map (fun s =>
      (s, (summaries.filter (fun s2 => s2 = s)).length))
    let top_contexts := (sortDescBy (fun kc => kc.2) counted).take 3
    top_contexts.filterMap (fun kc =>
      if 2 ≤ kc.2 then
        some { rtype := "pattern_based", recommended_agent := none
               capability := capability.value
               confidence := min (9/10) ((kc.2 : Rat) * (2/10))
               reason := "Common success pattern in " ++ kc.1
               suggested_action := "Apply " ++ kc.1 ++ " approach to similar tasks" }
      else none)
  else []

/-- `get_agent_recommendations`: group the other agents' successful
high-confidence experiences for the capability by author (dict keys in
first-occurrence order), recommend each author with at least 2 such
experiences whose mean confidence exceeds 0.8 and success rate exceeds
0.7, append the pattern-based recommendations, and return the first 5. -/
def get_agent_recommendations (c : Coordinator) (agent_id : String)
    (capability : AgentCapability) : List Recommendation :=
  let relevant := c.learning_experiences.filter (fun e =>
    e.capability = capability ∧ e.success = true ∧
      e.agent_id ≠ agent_id ∧ (7 : Rat)/10 < e.confidence)
  let expertRecs := (relevant.map (fun e => e.agent_id)).eraseDups.filterMap (fun a =>
    let experiences := relevant.filter (fun e => e.agent_id = a)
    if 2 ≤ experiences.length then
      let avg := (experiences.map (fun e => e.confidence)).sum /
        (experiences.length : Rat)
      let sr := ((experiences.filter (fun e => e.success = true)).length : Rat) /
        (experiences.length : Rat)
      if (8 : Rat)/10 < avg ∧ (7 : Rat)/10 < sr then
        some { rtype := "learn_from_expert", recommended_agent := some a
               capability := capability.value, confidence := avg
               reason := "High-performing agent with " ++
                 Nat.repr experiences.length ++ " successful experiences"
               suggested_action := "Request knowledge transfer" }
      else none
    else none)
  (expertRecs ++ get_pattern_recommendations c agent_id capability).take 5

/-- One `agent_statistics` entry of the learning report. -/
structure AgentStat where
  agent_type : String
  experience_count : Nat
  success_rate : Rat
  reputation : Rat
  specializations : List String
deriving DecidableEq, Repr

/-- One `learning_patterns` entry of the learning report. -/
structure LearningPattern where
  experience_count : Nat
  success_rate : Rat
  average_confidence : Rat
  trend : String
deriving DecidableEq, Repr

/-- One `top_performers` entry of the learning report. -/
structure TopPerformer where
  agent_id : String
  agent_type : String
  score : Rat
  experience_count : Nat
deriving DecidableEq, Repr

/-- One `knowledge_gaps` entry of the learning report. -/
structure KnowledgeGap where
  capability : String
  severity : String
  recommendation : String
deriving DecidableEq, Repr

/-- The report dict built by `generate_learning_report`. -/
structure Report where
  timestamp : Rat
  metrics : LearningMetrics
  agent_statistics : List (String × AgentStat)
  learning_patterns : List (String × LearningPattern)
  collaboration_network : String → List String
  top_performers : List TopPerformer
  knowledge_gaps : List KnowledgeGap

/-- The `learning_patterns` section of the report: experiences grouped by
capability (dict keys in first-occurrence order); each capability with at
least 5 experiences gets its success rate, mean confidence and trend. -/
def learningPatterns (exps : List Experience) : List (String × LearningPattern) :=
  (exps.map (fun e => e.capability.value)).eraseDups.filterMap (fun cap =>
    let es := exps.filter (fun e => e.capability.value = cap)
    if 5 ≤ es.length then
      some (cap,
        { experience_count := es.length
          success_rate := ((es.filter (fun e => e.success = true)).length : Rat) /
            (es.length : Rat)
          average_confidence := (es.map (fun e => e.confidence)).sum /
            (es.length : Rat)
          trend :=
            if (7 : Rat)/10 <
                ((es.filter (fun e => e.success = true)).length : Rat) /
                  (es.length : Rat)
            then "improving" else "needs_attention" })
    else none)

/-- The `AgentCapability` enum in declaration order (the Python set of all
capability values is iterated in an unspecified order; the model fixes the
enum order). -/
def allCapabilities : List AgentCapability :=
  [AgentCapability.code_generation, AgentCapability.code_review,
   AgentCapability.testing, AgentCapability.debugging,
   AgentCapability.deployment, AgentCapability.monitoring,
   AgentCapability.security_scanning, AgentCapability.performance_optimization]

/-- `generate_learning_report`: metric counters and collaboration network
copied as-is, per-agent statistics from the profiles, `learning_patterns`
from the experience store, top 5 performers by `success_rate * reputation`
(stable descending sort over profile insertion order), and a gap entry for
every capability no registered agent declares. -/
def generate_learning_report (c : Coordinator) (now : Rat) : Report :=
  { timestamp := now
    metrics := c.learning_metrics
    agent_statistics := c.agent_profiles.map (fun kv =>
      (kv.1, { agent_type := kv.2.agent_type
               experience_count := kv.2.experience_count
               success_rate := kv.2.success_rate
               reputation := kv.2.reputation_score
               specializations := kv.2.specializations }))
    learning_patterns := learningPatterns c.learning_experiences
    collaboration_network := c.collaboration_network
    top_performers :=
      ((sortDescBy (fun p => p.success_rate * p.reputation_score)
        (c.agent_profiles.map (fun kv => kv.2))).take 5).map (fun p =>
          { agent_id := p.agent_id, agent_type := p.agent_type
            score := p.success_rate * p.reputation_score
            experience_count := p.experience_count })
    knowledge_gaps :=
      (allCapabilities.filter (fun cap =>
        c.agent_profiles.all (fun kv => cap ∉ kv.2.capabilities))).map (fun cap =>
          { capability := cap.value
            severity :=
              if cap = AgentCapability.security_scanning ∨
                  cap = AgentCapability.deployment
              then "high" else "medium"
            recommendation :=
              "Consider adding agents with " ++ cap.value ++ " capability" }) }

/-! ## Claim C2: per-key ledger cap -/

/-- Both per-key stores stay at or below the cap after a store step. -/
theorem storePattern_length_le (l : List Pattern) (e : Pattern)
    (h : l.length ≤ MAX_RECORDS) : (storePattern l e).length ≤ MAX_RECORDS := by
  unfold storePattern
  split
  · rename_i hge
    simp only [MAX_RECORDS] at h hge ⊢
    rcases l with _ | ⟨a, l⟩
    · simp at hge
    · simp only [List.tail_cons, List.length_append, List.length_cons,
        List.length_nil] at *
      omega
  · rename_i hlt
    simp only [MAX_RECORDS] at h hlt ⊢
    simp only [List.length_append, List.length_cons, List.length_nil] at *
    omega

/-- Invariant: every per-key list of both stores is within the cap. -/
def PLSBounded (s : PLS) : Prop :=
  ∀ k, (s.error_database k).length ≤ MAX_RECORDS ∧
    (s.success_patterns k).length ≤ MAX_RECORDS

theorem store_success_preserves_bounded (s : PLS) (k0 : String) (e : Pattern)
    (h : PLSBounded s) : PLSBounded (store_success_pattern s k0 e) := by
  intro k
  refine ⟨(h k).1, ?_⟩
  unfold store_success_pattern
  dsimp only
  split
  · exact storePattern_length_le _ _ (h k0).2
  · exact (h k).2

theorem store_error_preserves_bounded (s : PLS) (k0 : String) (e : Pattern)
    (h : PLSBounded s) : PLSBounded (store_error_pattern s k0 e) := by
  intro k
  refine ⟨?_, (h k).2⟩
  unfold store_error_pattern
  dsimp only
  split
  · exact storePattern_length_le _ _ (h k0).1
  · exact (h k).1

theorem record_performance_preserves_bounded (s : PLS) (k0 : String) (t : Rat)
    (h : PLSBounded s) : PLSBounded (record_performance s k0 t) := h

theorem learn_preserves_bounded (s : PLS) (d : DeploymentData)
    (h : PLSBounded s) : PLSBounded (learn_from_deployment s d).2 := by
  unfold learn_from_deployment
  rcases d with ⟨et, sol, su, ts, ex⟩
  match et, su with
  | none, _ => exact h
  | some (PyVal.vStr e0), none => exact h
  | some (PyVal.vStr e0), some PyVal.vOther => exact h
  | some (PyVal.vStr e0), some (PyVal.vStr x) => exact h
  | some PyVal.vOther, _ => exact h
  | some (PyVal.vBool x), _ => exact h
  | some (PyVal.vStr e0), some (PyVal.vBool b) =>
    dsimp only
    split
    · exact h
    · have h1 : PLSBounded (if b then store_success_pattern s e0
          { solution := sol, success := b, timestamp := ts, execTime := ex }
        else store_error_pattern s e0
          { solution := sol, success := b, timestamp := ts, execTime := ex }) := by
        split
        · exact store_success_preserves_bounded _ _ _ h
        · exact store_error_preserves_bounded _ _ _ h
      cases ex with
      | none => exact h1
      | some t => exact record_performance_preserves_bounded _ _ _ h1

/-- A valid all-success record stream used for the concrete C2 scenarios:
record `i` carries solution `"s<i>"`. -/
def sameKeyRecord (b : Bool) (i : Nat) : DeploymentData :=
  { error_type := some (PyVal.vStr "k"), solution := some ("s" ++ Nat.repr i)
    success := some (PyVal.vBool b), timestamp := (i : Rat), execTime := none }

/-- Run a list of deployment records through the learner. -/
def runLearn (s : PLS) (ds : List DeploymentData) : PLS :=
  ds.foldl (fun st d => (learn_from_deployment st d).2) s

set_option maxRecDepth 40000 in
/-- C2, counterexample: 100 records under the single key `"k"` with an
alternating success/failure mix leave 100 stored entries under that key
(50 in each of the two stores), not 50 as the claim states. -/
theorem C2_counterexample :
    (((runLearn emptyPLS ((List.range 100).map
        (fun i => sameKeyRecord (i % 2 = 0) i))).success_patterns "k").length +
     ((runLearn emptyPLS ((List.range 100).map
        (fun i => sameKeyRecord (i % 2 = 0) i))).error_database "k").length = 100)
    ∧ (100 : Nat) ≠ 50 := by
  constructor
  · decide
  · decide

set_option maxRecDepth 40000 in
/-- C2, amended: each of the two per-key stores (success patterns and error
patterns) individually holds at most `MAX_RECORDS = 50` entries with FIFO
eviction of the oldest; inserting 100 records with one and the same success
flag under one key leaves exactly 50 entries, the oldest 50 dropped; records
of a mixed stream are split between the two stores, which together may hold
up to 100 entries for the key. -/
theorem C2_theorem :
    (∀ ds k, ((runLearn emptyPLS ds).error_database k).length ≤ MAX_RECORDS ∧
        ((runLearn emptyPLS ds).success_patterns k).length ≤ MAX_RECORDS)
    ∧ ((runLearn emptyPLS ((List.range 100).map (sameKeyRecord true))).success_patterns "k")
        = ((List.range 100).drop 50).map
            (fun i => { solution := some ("s" ++ Nat.repr i), success := true
                        timestamp := (i : Rat), execTime := none })
    ∧ ((runLearn emptyPLS ((List.range 100).map (sameKeyRecord true))).error_database "k") = [] := by
  refine ⟨?_, ?_, ?_⟩
  · intro ds k
    have : PLSBounded (runLearn emptyPLS ds) := by
      unfold runLearn
      induction ds using List.reverseRecOn with
      | nil =>
          intro k
          exact ⟨by simp [emptyPLS], by simp [emptyPLS]⟩
      | append_singleton ds d ih =>
          rw [List.foldl_append, List.foldl_cons, List.foldl_nil]
          exact learn_preserves_bounded _ _ ih
    exact this k
  · decide
  · decide

/-! ## Claim C7: learn_from_deployment validation -/

/-- C7, counterexample: for the whitespace-only key `" "` — a present,
non-empty string — and boolean success, `learn_from_deployment` returns
`False` (the code also rejects keys that are blank after `strip()`),
contradicting the claim that every such call returns `True`. -/
theorem C7_counterexample :
    (learn_from_deployment emptyPLS
      { error_type := some (PyVal.vStr " "), solution := some "s"
        success := some (PyVal.vBool true), timestamp := 0, execTime := none }).1
      = false
    ∧ (" " : String) ≠ "" := by
  constructor
  · decide
  · decide

/-- C7, amended: `learn_from_deployment` returns `False` and performs no
mutation exactly when the key is missing, not a string, or blank after
stripping whitespace, or when `success` is missing or not a boolean; every
call with valid inputs returns `True` and appends exactly one record at the
tail of the store for that key (the success store when `success` is true,
the error store otherwise), leaving the other store and all other keys
unchanged. -/
theorem C7_theorem :
    ∀ (s : PLS) (d : DeploymentData),
      ((learn_from_deployment s d).1 = true ↔
        ∃ et b, d.error_type = some (PyVal.vStr et) ∧
          d.success = some (PyVal.vBool b) ∧ pyStrip et ≠ []) ∧
      ((learn_from_deployment s d).1 = false → (learn_from_deployment s d).2 = s) ∧
      (∀ et, d.error_type = some (PyVal.vStr et) →
        d.success = some (PyVal.vBool true) → pyStrip et ≠ [] →
        (learn_from_deployment s d).2.error_database = s.error_database ∧
        ((learn_from_deployment s d).2.success_patterns et).getLast? =
          some { solution := d.solution, success := true, timestamp := d.timestamp
                 execTime := d.execTime } ∧
        ((s.success_patterns et).length < MAX_RECORDS →
          ((learn_from_deployment s d).2.success_patterns et).length =
            (s.success_patterns et).length + 1) ∧
        (∀ k, k ≠ et → (learn_from_deployment s d).2.success_patterns k =
          s.success_patterns k)) ∧
      (∀ et, d.error_type = some (PyVal.vStr et) →
        d.success = some (PyVal.vBool false) → pyStrip et ≠ [] →
        (learn_from_deployment s d).2.success_patterns = s.success_patterns ∧
        ((learn_from_deployment s d).2.error_database et).getLast? =
          some { solution := d.solution, success := false, timestamp := d.timestamp
                 execTime := d.execTime } ∧
        ((s.error_database et).length < MAX_RECORDS →
          ((learn_from_deployment s d).2.error_database et).length =
            (s.error_database et).length + 1) ∧
        (∀ k, k ≠ et → (learn_from_deployment s d).2.error_database k =
          s.error_database k)) := by
  intro s d
  rcases d with ⟨et0, sol, su, ts, ex⟩
  refine ⟨?_, ?_, ?_, ?_⟩
  · constructor
    · intro h
      match et0, su with
      | none, none => simp [learn_from_deployment] at h
      | none, some x => simp [learn_from_deployment] at h
      | some (PyVal.vStr e0), none => simp [learn_from_deployment] at h
      | some (PyVal.vStr e0), some PyVal.vOther => simp [learn_from_deployment] at h
      | some (PyVal.vStr e0), some (PyVal.vStr x) => simp [learn_from_deployment] at h
      | some PyVal.vOther, none => simp [learn_from_deployment] at h
      | some PyVal.vOther, some x => simp [learn_from_deployment] at h
      | some (PyVal.vBool y), none => simp [learn_from_deployment] at h
      | some (PyVal.vBool y), some x => simp [learn_from_deployment] at h
      | some (PyVal.vStr e0), some (PyVal.vBool b) =>
        refine ⟨e0, b, rfl, rfl, ?_⟩
        intro hb
        simp [learn_from_deployment, hb] at h
    · rintro ⟨e0, b, h1, h2, h3⟩
      cases h1
      cases h2
      simp [learn_from_deployment, h3]
  · intro h
    match et0, su with
    | none, none => rfl
    | none, some x => rfl
    | some (PyVal.vStr e0), none => rfl
    | some (PyVal.vStr e0), some PyVal.vOther => rfl
    | some (PyVal.vStr e0), some (PyVal.vStr x) => rfl
    | some PyVal.vOther, none => rfl
    | some PyVal.vOther, some x => rfl
    | some (PyVal.vBool y), none => rfl
    | some (PyVal.vBool y), some x => rfl
    | some (PyVal.vStr e0), some (PyVal.vBool b) =>
      by_cases hb : pyStrip e0 = []
      · simp [learn_from_deployment, hb]
      · simp [learn_from_deployment, hb] at h
  · rintro et rfl rfl hne
    refine ⟨?_, ?_, ?_, ?_⟩
    · cases ex <;>
        simp [learn_from_deployment, hne, record_performance, store_success_pattern]
    · cases ex <;>
        simp [learn_from_deployment, hne, record_performance, store_success_pattern,
          storePattern]
    · intro hlen
      have hlen2 : ¬ (s.success_patterns et).length ≥ MAX_RECORDS := by omega
      cases ex <;>
        simp [learn_from_deployment, hne, record_performance, store_success_pattern,
          storePattern, hlen2]
    · intro k hk
      cases ex <;>
        simp [learn_from_deployment, hne, record_performance, store_success_pattern, hk]
  · rintro et rfl rfl hne
    refine ⟨?_, ?_, ?_, ?_⟩
    · cases ex <;>
        simp [learn_from_deployment, hne, record_performance, store_error_pattern]
    · cases ex <;>
        simp [learn_from_deployment, hne, record_performance, store_error_pattern,
          storePattern]
    · intro hlen
      have hlen2 : ¬ (s.error_database et).length ≥ MAX_RECORDS := by omega
      cases ex <;>
        simp [learn_from_deployment, hne, record_performance, store_error_pattern,
          storePattern, hlen2]
    · intro k hk
      cases ex <;>
        simp [learn_from_deployment, hne, record_performance, store_error_pattern, hk]

/-- C7, witness: the amended theorem applied to a concrete valid record on
the empty learner. -/
theorem C7_witness :
    (learn_from_deployment emptyPLS (sameKeyRecord true 0)).1 = true ∧
    ((learn_from_deployment emptyPLS (sameKeyRecord true 0)).2.success_patterns "k").length
      = 1 := by
  have h := C7_theorem emptyPLS (sameKeyRecord true 0)
  refine ⟨h.1.mpr ⟨"k", true, rfl, rfl, by decide⟩, ?_⟩
  have h2 := (h.2.2.1 "k" rfl rfl (by decide)).2.2.1 (by decide)
  simpa [emptyPLS] using h2

/-! ## Claim C8: backlog and applied-log caps -/

/-- A fixed applied-log entry for the concrete C8 scenario. -/
def e0 : AppliedEntry :=
  { timestamp := 0, title := "t", otype := OptimizationType.memory
    risk := RiskLevel.low, confidence := 1 }

/-- A valid low-risk suggestion used by concrete engine scenarios. -/
def sugOK : Suggestion :=
  { otype := some OptimizationType.memory, title := "t", risk := RiskLevel.low
    confidence := 1 }

set_option maxRecDepth 40000 in
/-- C8, counterexample: logging onto an applied-improvements log holding
100 entries leaves 100 entries (the code truncates to the most recent 100),
not 50 — the log is never "trimmed to half its capacity". -/
theorem C8_counterexample :
    ((log_improvement
        { emptyCIEngine with applied_improvements := List.replicate 100 e0 }
        0 sugOK).applied_improvements.length = 100)
    ∧ (100 : Nat) ≠ 50 := by
  constructor
  · decide
  · decide

/-- The generate step with a metrics reading of 600MB resident memory. -/
def genStep (s : CIEngine) : CIEngine :=
  (generate_optimization_suggestions s
    { rss_mb := some 600, avg_response := none, recent_error_rate := none }).2

theorem genStep_length (s : CIEngine) :
    s.optimization_suggestions.length + 1 ≤
      (genStep s).optimization_suggestions.length := by
  have h1 : ((500 : Rat) < 600) := by norm_num
  unfold genStep generate_optimization_suggestions
  dsimp only
  rw [if_pos h1]
  split <;> simp [List.length_append]

theorem genIter_length (n : Nat) :
    n ≤ (genStep^[n] emptyCIEngine).optimization_suggestions.length := by
  induction n with
  | zero => simp
  | succ n ih =>
      rw [Function.iterate_succ_apply']
      have := genStep_length (genStep^[n] emptyCIEngine)
      omega

/-- C8, amended: the applied-improvements log is capped at 100 entries —
`log_improvement` appends the new entry at the tail and, when the log
exceeds 100, keeps only the most recent 100 (a suffix of the appended log),
so a log within the cap stays within it; the pending-suggestion backlog has
no cap at all: `generate_optimization_suggestions` only ever appends, and
1001 generate cycles under high memory readings leave a backlog of more
than 1000 entries. -/
theorem C8_theorem :
    (∀ (s : CIEngine) (now : Rat) (sug : Suggestion),
      (s.applied_improvements.length ≤ 100 →
        (log_improvement s now sug).applied_improvements.length ≤ 100) ∧
      (∀ ot, sug.otype = some ot →
        (log_improvement s now sug).applied_improvements <:+
          s.applied_improvements ++
            [{ timestamp := now, title := sug.title, otype := ot
               risk := sug.risk, confidence := sug.confidence }]))
    ∧ 1000 < (genStep^[1001] emptyCIEngine).optimization_suggestions.length := by
  constructor
  · intro s now sug
    constructor
    · intro h
      unfold log_improvement
      match hot : sug.otype with
      | none => exact h
      | some ot =>
          dsimp only
          split
          · rename_i hgt
            simp only [List.length_drop] at *
            omega
          · rename_i hle
            simp only [List.length_append, List.length_cons, List.length_nil] at *
            omega
    · intro ot hot
      unfold log_improvement
      rw [hot]
      dsimp only
      split
      · exact List.drop_suffix _ _
      · exact List.suffix_refl _
  · have := genIter_length 1001
    omega

/-- C8, witness: the cap-preservation implication applied to the empty
engine and a concrete suggestion. -/
theorem C8_witness :
    (log_improvement emptyCIEngine 0 sugOK).applied_improvements.length ≤ 100 :=
  ((C8_theorem.1 emptyCIEngine 0 sugOK).1 (by decide))

/-! ## Claim C3: implement_improvements gating -/

/-- The non-low-risk part of a backlog; C3 states it is untouched. -/
def filterNotLow (l : List Suggestion) : List Suggestion :=
  l.filter (fun x => x.risk ≠ RiskLevel.low)

theorem erase_filterNotLow (l : List Suggestion) (sug : Suggestion)
    (h : sug.risk = RiskLevel.low) :
    filterNotLow (l.erase sug) = filterNotLow l := by
  induction l with
  | nil => rfl
  | cons a l ih =>
      rw [List.erase_cons]
      by_cases hab : a = sug
      · subst hab
        have : (a == a) = true := beq_self_eq_true a
        rw [if_pos this]
        unfold filterNotLow
        rw [List.filter_cons]
        simp [h]
      · have : (a == sug) = false := beq_eq_false_iff_ne.mpr hab
        rw [if_neg (by simp [this])]
        unfold filterNotLow at *
        rw [List.filter_cons, List.filter_cons, ih]

theorem apply_improvement_opt (s : CIEngine) (sug : Suggestion) :
    (apply_improvement s sug).2.optimization_suggestions =
      s.optimization_suggestions := by
  unfold apply_improvement
  match sug.otype with
  | none => rfl
  | some OptimizationType.memory =>
      dsimp only
      unfold applyMemoryOptimization
      split
      · rfl
      · split <;> rfl
  | some OptimizationType.performance => rfl
  | some OptimizationType.reliability => rfl
  | some OptimizationType.security => rfl

theorem log_improvement_opt (s : CIEngine) (now : Rat) (sug : Suggestion) :
    (log_improvement s now sug).optimization_suggestions =
      s.optimization_suggestions := by
  unfold log_improvement
  match sug.otype with
  | none => rfl
  | some ot => rfl

theorem implStep_filterNotLow (now : Rat) (acc : CIEngine × ImplResults)
    (sug : Suggestion) (h : sug.risk = RiskLevel.low) :
    filterNotLow (implStep now acc sug).1.optimization_suggestions =
      filterNotLow acc.1.optimization_suggestions := by
  unfold implStep
  dsimp only
  split
  · dsimp only
    rw [log_improvement_opt, apply_improvement_opt, erase_filterNotLow _ _ h]
  · dsimp only
    rw [apply_improvement_opt]

theorem foldl_implStep_filterNotLow (now : Rat) (l : List Suggestion)
    (acc : CIEngine × ImplResults) (h : ∀ x ∈ l, x.risk = RiskLevel.low) :
    filterNotLow (l.foldl (implStep now) acc).1.optimization_suggestions =
      filterNotLow acc.1.optimization_suggestions := by
  induction l generalizing acc with
  | nil => rfl
  | cons a l ih =>
      rw [List.foldl_cons, ih _ (fun x hx => h x (List.mem_cons_of_mem a hx)),
        implStep_filterNotLow now acc a (h a (List.mem_cons_self a l))]

theorem foldl_implStep_implemented (now : Rat) (l : List Suggestion)
    (acc : CIEngine × ImplResults) :
    (l.foldl (implStep now) acc).2.implemented ≤ acc.2.implemented + l.length := by
  induction l generalizing acc with
  | nil => simp
  | cons a l ih =>
      rw [List.foldl_cons]
      have h1 : (implStep now acc a).2.implemented ≤ acc.2.implemented + 1 := by
        unfold implStep
        dsimp only
        split <;> simp
      have h2 := ih (implStep now acc a)
      simp only [List.length_cons]
      omega

theorem foldl_erase_filterNotLow (l : List Suggestion) (s : CIEngine)
    (h : ∀ x ∈ l, x.risk = RiskLevel.low) :
    filterNotLow ((l.foldl (fun st sug =>
        { st with optimization_suggestions := st.optimization_suggestions.erase sug })
      s).optimization_suggestions) = filterNotLow s.optimization_suggestions := by
  induction l generalizing s with
  | nil => rfl
  | cons a l ih =>
      rw [List.foldl_cons, ih _ (fun x hx => h x (List.mem_cons_of_mem a hx))]
      exact erase_filterNotLow _ _ (h a (List.mem_cons_self a l))

/-- Concrete low-risk suggestions for the C3 scenarios. -/
def lowSug (i : Nat) : Suggestion :=
  { otype := some OptimizationType.performance, title := "low" ++ Nat.repr i
    risk := RiskLevel.low, confidence := 1 }

/-- Concrete medium-risk suggestions for the C3 scenarios. -/
def medSug (i : Nat) : Suggestion :=
  { otype := some OptimizationType.memory, title := "med" ++ Nat.repr i
    risk := RiskLevel.medium, confidence := 1 }

/-- A backlog of 12 pending suggestions of which 6 are low risk. -/
def s12 : CIEngine :=
  { emptyCIEngine with optimization_suggestions :=
      [lowSug 1, medSug 1, lowSug 2, medSug 2, lowSug 3, medSug 3,
       lowSug 4, medSug 4, lowSug 5, medSug 5, lowSug 6, medSug 6] }

/-- A backlog whose first low-risk suggestion fails to apply (its type is
not an `OptimizationType`). -/
def sFail : CIEngine :=
  { emptyCIEngine with optimization_suggestions :=
      [{ otype := none, title := "bad", risk := RiskLevel.low, confidence := 1 },
       { otype := some OptimizationType.performance, title := "g1"
         risk := RiskLevel.low, confidence := 1 },
       { otype := some OptimizationType.security, title := "g2"
         risk := RiskLevel.low, confidence := 1 }] }

set_option maxRecDepth 40000 in
/-- C3: `implement_improvements` applies only low-risk suggestions, at most
5 per call; the non-low part of the backlog is never applied, mutated or
removed; with 12 pending suggestions of which 6 are LOW it applies exactly
5, leaves 1 LOW suggestion pending and all 6 non-LOW ones untouched; a
failure applying one suggestion is counted as failed and the rest of the
batch is still processed. -/
theorem C3_theorem :
    (∀ (s : CIEngine) (now : Rat),
      (implement_improvements s now).2.implemented ≤ 5 ∧
      filterNotLow (implement_improvements s now).1.optimization_suggestions =
        filterNotLow s.optimization_suggestions)
    ∧ ((implement_improvements s12 0).2.implemented = 5 ∧
       (implement_improvements s12 0).2.failed = 0 ∧
       (implement_improvements s12 0).1.optimization_suggestions =
         [medSug 1, medSug 2, medSug 3, medSug 4, medSug 5, lowSug 6, medSug 6] ∧
       (implement_improvements s12 0).1.applied_improvements.length = 5)
    ∧ ((implement_improvements sFail 0).2.failed = 1 ∧
       (implement_improvements sFail 0).2.implemented = 2 ∧
       (implement_improvements sFail 0).2.details =
         [("bad", false), ("g1", true), ("g2", true)]) := by
  refine ⟨?_, by decide, by decide⟩
  intro s now
  constructor
  · unfold implement_improvements
    dsimp only
    have h := foldl_implStep_implemented now
      ((s.optimization_suggestions.filter
        (fun x => x.risk = RiskLevel.low)).take 5)
      (s, { implemented := 0, skipped := 0, failed := 0, details := [] })
    have hlen : ((s.optimization_suggestions.filter
        (fun x => x.risk = RiskLevel.low)).take 5).length ≤ 5 := by
      simp [List.length_take]
    dsimp only at h
    omega
  · unfold implement_improvements
    dsimp only
    have hmemlow : ∀ x ∈ s.optimization_suggestions.filter
        (fun x => x.risk = RiskLevel.low), x.risk = RiskLevel.low := by
      intro x hx
      have := List.mem_filter.mp hx
      exact of_decide_eq_true this.2
    rw [foldl_erase_filterNotLow _ _
        (fun x hx => hmemlow x (List.take_subset _ _ hx)),
      foldl_implStep_filterNotLow _ _ _
        (fun x hx => hmemlow x (List.take_subset _ _ hx))]

/-! ## Association list and coordinator toolbox -/

theorem lookupAssoc_append_right {α β : Type} [DecidableEq α]
    (l : List (α × β)) (k k' : α) (v : β) (h : k ≠ k') :
    lookupAssoc (l ++ [(k', v)]) k = lookupAssoc l k := by
  unfold lookupAssoc
  induction l with
  | nil => simp [List.find?, Ne.symm h]
  | cons a l ih =>
      by_cases ha : a.1 = k
      · simp [List.find?, ha]
      · simp only [List.cons_append, List.find?]
        rw [decide_eq_false ha]
        simpa using ih

theorem insertAssoc_fresh {α β : Type} [DecidableEq α]
    (l : List (α × β)) (k : α) (v : β) (h : ∀ kv ∈ l, kv.1 ≠ k) :
    insertAssoc l k v = l ++ [(k, v)] := by
  unfold insertAssoc
  rw [if_neg]
  intro hany
  rcases List.any_eq_true.mp hany with ⟨kv, hkv, hk⟩
  exact h kv hkv (of_decide_eq_true hk)

theorem lookupAssoc_map_at {α β : Type} [DecidableEq α]
    (l : List (α × β)) (aid k : α) (f : β → β) :
    lookupAssoc (updAssoc l aid f) k =
      if k = aid then (lookupAssoc l k).map f else lookupAssoc l k := by
  induction l with
  | nil => simp [lookupAssoc, updAssoc]
  | cons a l ih =>
      by_cases hk : a.1 = k
      · have h1 : decide ((if a.1 = aid then (a.1, f a.2) else a).1 = k) = true := by
          split <;> simpa using hk
        have h2 : decide (a.1 = k) = true := by simpa using hk
        unfold lookupAssoc updAssoc
        simp only [List.map_cons, List.find?, h1, h2]
        by_cases ha : k = aid
        · have h3 : a.1 = aid := hk.trans ha
          simp [ha, h3]
        · have h3 : ¬ a.1 = aid := fun h0 => ha (hk.symm.trans h0)
          simp [ha, h3]
      · have h1 : decide ((if a.1 = aid then (a.1, f a.2) else a).1 = k) = false := by
          split <;> simpa using hk
        have h2 : decide (a.1 = k) = false := by simpa using hk
        unfold lookupAssoc updAssoc at ih ⊢
        simp only [List.map_cons, List.find?, h1, h2]
        exact ih

/-- Lookup at the updated id after `mapProfileAt`. -/
theorem mapProfileAt_lookup_self (c : Coordinator) (aid : String)
    (f : AgentProfile → AgentProfile) :
    lookupAssoc (mapProfileAt c aid f).agent_profiles aid =
      (lookupAssoc c.agent_profiles aid).map f := by
  unfold mapProfileAt
  rw [lookupAssoc_map_at, if_pos rfl]

/-- Lookup at any other id after `mapProfileAt`. -/
theorem mapProfileAt_lookup_other (c : Coordinator) (aid k : String)
    (f : AgentProfile → AgentProfile) (h : k ≠ aid) :
    lookupAssoc (mapProfileAt c aid f).agent_profiles k =
      lookupAssoc c.agent_profiles k := by
  unfold mapProfileAt
  rw [lookupAssoc_map_at, if_neg h]

theorem setTransferStatus_lookup_self (ts : List (Nat × KnowledgeTransfer))
    (tid : Nat) (st : String) :
    lookupAssoc (setTransferStatus ts tid st) tid =
      (lookupAssoc ts tid).map (fun t => { t with status := st }) := by
  unfold setTransferStatus
  rw [lookupAssoc_map_at, if_pos rfl]

/-- The transfer-id bound invariant: every stored transfer id is below the
uuid counter, so freshly drawn ids never collide. -/
def KeysBound (c : Coordinator) : Prop :=
  ∀ kv ∈ c.knowledge_transfers, kv.1 < c.next_id

theorem addPending_preserves (c : Coordinator) (now : Rat) (e : Experience)
    (a : String) (h : KeysBound c) :
    KeysBound (addPendingTransfer c now e a) ∧
    c.next_id ≤ (addPendingTransfer c now e a).next_id ∧
    (addPendingTransfer c now e a).agent_profiles = c.agent_profiles ∧
    (addPendingTransfer c now e a).learning_experiences = c.learning_experiences ∧
    ∀ tid, tid < c.next_id →
      lookupAssoc (addPendingTransfer c now e a).knowledge_transfers tid =
        lookupAssoc c.knowledge_transfers tid := by
  have hfresh : ∀ kv ∈ c.knowledge_transfers, kv.1 ≠ c.next_id :=
    fun kv hkv => Nat.ne_of_lt (h kv hkv)
  refine ⟨?_, ?_, rfl, rfl, ?_⟩
  · intro kv hkv
    unfold addPendingTransfer at hkv
    dsimp only at hkv
    rw [insertAssoc_fresh _ _ _ hfresh] at hkv
    rcases List.mem_append.mp hkv with h1 | h1
    · exact Nat.lt_succ_of_lt (h kv h1)
    · rcases List.mem_singleton.mp h1 with rfl
      exact Nat.lt_succ_self _
  · exact Nat.le_succ _
  · intro tid ht
    unfold addPendingTransfer
    dsimp only
    rw [insertAssoc_fresh _ _ _ hfresh,
      lookupAssoc_append_right _ _ _ _ (Nat.ne_of_lt ht)]

theorem fold_addPending_preserves (now : Rat) (e : Experience)
    (rel : List String) (c : Coordinator) (h : KeysBound c) :
    KeysBound (rel.foldl (fun st aid =>
        if aid = e.agent_id then st else addPendingTransfer st now e aid) c) ∧
    c.next_id ≤ (rel.foldl (fun st aid =>
        if aid = e.agent_id then st else addPendingTransfer st now e aid) c).next_id ∧
    (rel.foldl (fun st aid =>
        if aid = e.agent_id then st else addPendingTransfer st now e aid) c).agent_profiles
      = c.agent_profiles ∧
    (rel.foldl (fun st aid =>
        if aid = e.agent_id then st else addPendingTransfer st now e aid) c).learning_experiences
      = c.learning_experiences ∧
    ∀ tid, tid < c.next_id →
      lookupAssoc (rel.foldl (fun st aid =>
          if aid = e.agent_id then st else addPendingTransfer st now e aid) c).knowledge_transfers tid
        = lookupAssoc c.knowledge_transfers tid := by
  induction rel generalizing c with
  | nil => exact ⟨h, Nat.le_refl _, rfl, rfl, fun _ _ => rfl⟩
  | cons a rel ih =>
      rw [List.foldl_cons]
      by_cases ha : a = e.agent_id
      · rw [if_pos ha]
        exact ih c h
      · rw [if_neg ha]
        have h1 := addPending_preserves c now e a h
        have h2 := ih (addPendingTransfer c now e a) h1.1
        refine ⟨h2.1, Nat.le_trans h1.2.1 h2.2.1, ?_, ?_, ?_⟩
        · rw [h2.2.2.1, h1.2.2.1]
        · rw [h2.2.2.2.1, h1.2.2.2.1]
        · intro tid ht
          rw [h2.2.2.2.2 tid (Nat.lt_of_lt_of_le ht h1.2.1),
            h1.2.2.2.2 tid ht]

/-- The transfer-creation loop never touches profiles or the experience
store (no invariant needed). -/
theorem fold_addPending_fields (now : Rat) (e : Experience)
    (rel : List String) (c : Coordinator) :
    (rel.foldl (fun st aid =>
        if aid = e.agent_id then st else addPendingTransfer st now e aid) c).agent_profiles
      = c.agent_profiles ∧
    (rel.foldl (fun st aid =>
        if aid = e.agent_id then st else addPendingTransfer st now e aid) c).learning_experiences
      = c.learning_experiences := by
  induction rel generalizing c with
  | nil => exact ⟨rfl, rfl⟩
  | cons a rel ih =>
      rw [List.foldl_cons]
      by_cases ha : a = e.agent_id
      · rw [if_pos ha]; exact ih c
      · rw [if_neg ha]
        have h2 := ih (addPendingTransfer c now e a)
        exact ⟨h2.1, h2.2⟩

/-- `share_learning_experience` on the experience store: one bounded push. -/
theorem share_experiences_eq (c : Coordinator) (now : Rat) (e : Experience) :
    (share_learning_experience c now e).2.learning_experiences =
      pushExperience c.learning_experiences e := by
  unfold share_learning_experience
  dsimp only
  rw [(fold_addPending_fields now e _ _).2]
  rfl

/-! ## Claim C9: bounded global experience store -/

/-- The last `n` elements of a list. -/
def lastN (n : Nat) (l : List α) : List α := l.drop (l.length - n)

theorem lastN_append_lastN (n : Nat) (xs ys : List α) :
    lastN n (lastN n xs ++ ys) = lastN n (xs ++ ys) := by
  unfold lastN
  have hk : xs.length - n ≤ xs.length := Nat.sub_le _ _
  rw [← List.drop_append_of_le_length hk, List.drop_drop]
  congr 1
  simp only [List.length_append, List.length_drop]
  omega

theorem pushExperience_lastN (l : List Experience) (e : Experience)
    (h : l.length ≤ 10000) :
    pushExperience l e = lastN 10000 (l ++ [e]) := by
  unfold pushExperience lastN
  by_cases hge : 10000 ≤ l.length
  · rw [if_pos hge]
    have hlen : l.length = 10000 := Nat.le_antisymm h hge
    have h1 : (l ++ [e]).length - 10000 = 1 := by
      simp [List.length_append, hlen]
    rw [h1, List.drop_append_of_le_length (by omega), List.drop_one]
  · rw [if_neg hge]
    have h1 : (l ++ [e]).length - 10000 = 0 := by
      simp only [List.length_append, List.length_cons, List.length_nil]
      omega
    rw [h1, List.drop_zero]

theorem lastN_length_le (n : Nat) (l : List α) : (lastN n l).length ≤ n := by
  unfold lastN
  simp only [List.length_drop]
  omega

theorem foldl_push_lastN (es l : List Experience) (h : l.length ≤ 10000) :
    es.foldl pushExperience l = lastN 10000 (l ++ es) := by
  induction es generalizing l with
  | nil =>
      unfold lastN
      have : l.length - 10000 = 0 := by omega
      simp [this]
  | cons e es ih =>
      rw [List.foldl_cons, ih (pushExperience l e)
        (by rw [pushExperience_lastN l e h]; exact lastN_length_le _ _),
        pushExperience_lastN l e h, lastN_append_lastN]
      simp

/-- Share a stream of experiences, each at its own timestamp. -/
def runShares (es : List Experience) : Coordinator :=
  es.foldl (fun c e => (share_learning_experience c e.timestamp e).2) emptyCoordinator

theorem runShares_experiences (es : List Experience) :
    (runShares es).learning_experiences = lastN 10000 es := by
  have key : ∀ (es : List Experience) (c : Coordinator),
      (es.foldl (fun c e => (share_learning_experience c e.timestamp e).2) c).learning_experiences
        = es.foldl pushExperience c.learning_experiences := by
    intro es
    induction es with
    | nil => intro c; rfl
    | cons e es ih =>
        intro c
        rw [List.foldl_cons, List.foldl_cons, ih, share_experiences_eq]
  rw [runShares, key]
  have : (emptyCoordinator.learning_experiences) = ([] : List Experience) := rfl
  rw [this, foldl_push_lastN es [] (by simp)]
  simp

/-- `get_agent_recommendations` reads the coordinator state only through
the experience store. -/
theorem get_agent_recommendations_congr (c1 c2 : Coordinator)
    (aid : String) (cap : AgentCapability)
    (h : c1.learning_experiences = c2.learning_experiences) :
    get_agent_recommendations c1 aid cap = get_agent_recommendations c2 aid cap := by
  unfold get_agent_recommendations get_pattern_recommendations
  rw [h]

/-- The `learning_patterns` section — the only part of the report computed
from experiences — reads the coordinator state only through the experience
store. -/
theorem report_patterns_congr (c1 c2 : Coordinator) (now1 now2 : Rat)
    (h : c1.learning_experiences = c2.learning_experiences) :
    (generate_learning_report c1 now1).learning_patterns =
      (generate_learning_report c2 now2).learning_patterns := by
  show learningPatterns c1.learning_experiences =
    learningPatterns c2.learning_experiences
  rw [h]

theorem lastN_idem (es : List Experience) :
    lastN 10000 (lastN 10000 es) = lastN 10000 es := by
  have h := lastN_append_lastN 10000 es ([] : List Experience)
  simpa using h

/-- C9: the coordinator's global experience store is a deque capped at
10,000 entries with FIFO eviction, so after any stream of shared
experiences the store holds exactly the most recent 10,000 of them, never
more, and the consumers of the store are computed over those most recent
10,000 experiences only: knowledge-transfer requests (their candidate
set), agent recommendations, and the learning report's experience-derived
`learning_patterns` section each coincide with their value after sharing
just the most recent 10,000 experiences (the report's remaining sections
read profiles, counters and the network, not experiences). -/
theorem C9_theorem :
    ∀ es : List Experience,
      (runShares es).learning_experiences = lastN 10000 es ∧
      (runShares es).learning_experiences.length ≤ 10000 ∧
      (∀ fromA cap, requestCandidates (runShares es) fromA cap =
        requestCandidates (runShares (lastN 10000 es)) fromA cap) ∧
      (∀ aid cap, get_agent_recommendations (runShares es) aid cap =
        get_agent_recommendations (runShares (lastN 10000 es)) aid cap) ∧
      (∀ now, (generate_learning_report (runShares es) now).learning_patterns =
        (generate_learning_report (runShares (lastN 10000 es)) now).learning_patterns) := by
  intro es
  have hstores : (runShares es).learning_experiences =
      (runShares (lastN 10000 es)).learning_experiences := by
    rw [runShares_experiences es, runShares_experiences (lastN 10000 es), lastN_idem]
  refine ⟨runShares_experiences es, ?_, ?_, ?_, ?_⟩
  · rw [runShares_experiences es]
    exact lastN_length_le _ _
  · intro fromA cap
    unfold requestCandidates
    rw [hstores]
  · intro aid cap
    exact get_agent_recommendations_congr _ _ aid cap hstores
  · intro now
    exact report_patterns_congr _ _ now now hstores

/-! ## Process-path lemmas shared by C1, C6, C10 -/

theorem lookupAssoc_some_mem {α β : Type} [DecidableEq α]
    {l : List (α × β)} {k : α} {v : β}
    (h : lookupAssoc l k = some v) : (k, v) ∈ l := by
  unfold lookupAssoc at h
  cases hf : l.find? (fun kv => decide (kv.1 = k)) with
  | none => rw [hf] at h; exact Option.noConfusion h
  | some kv =>
      rw [hf] at h
      have h2 : some kv.2 = some v := h
      have hvv : kv.2 = v := Option.some.inj h2
      have hm := List.mem_of_find?_eq_some hf
      have hp' := List.find?_some hf
      have hp : kv.1 = k := of_decide_eq_true hp'
      rcases kv with ⟨k0, v0⟩
      cases hp
      cases hvv
      exact hm

theorem keysBound_setStatus (c : Coordinator) (tid : Nat) (st : String)
    (h : KeysBound c) :
    KeysBound { c with knowledge_transfers :=
        setTransferStatus c.knowledge_transfers tid st } := by
  intro kv hkv
  unfold setTransferStatus updAssoc at hkv
  rcases List.mem_map.mp hkv with ⟨kv0, hkv0, heq⟩
  have hfst : kv.1 = kv0.1 := by rw [← heq]; split <;> rfl
  rw [hfst]
  exact h kv0 hkv0

theorem share_preserves_kt (c : Coordinator) (now : Rat) (e : Experience)
    (h : KeysBound c) :
    KeysBound (share_learning_experience c now e).2 ∧
    c.next_id ≤ (share_learning_experience c now e).2.next_id ∧
    ∀ tid, tid < c.next_id →
      lookupAssoc (share_learning_experience c now e).2.knowledge_transfers tid =
        lookupAssoc c.knowledge_transfers tid := by
  have h2 : KeysBound (mapProfileAt
      { c with learning_experiences := pushExperience c.learning_experiences e }
      e.agent_id (updateProfileExp now e)) := h
  have h3 := fold_addPending_preserves now e
    (find_relevant_agents (mapProfileAt
      { c with learning_experiences := pushExperience c.learning_experiences e }
      e.agent_id (updateProfileExp now e)) e)
    (mapProfileAt
      { c with learning_experiences := pushExperience c.learning_experiences e }
      e.agent_id (updateProfileExp now e))
    h2
  exact ⟨h3.1, h3.2.1, fun tid ht => h3.2.2.2.2 tid ht⟩

theorem share_lookup_none (c : Coordinator) (now : Rat) (e : Experience)
    (x : String) (h : lookupAssoc c.agent_profiles x = none) :
    lookupAssoc (share_learning_experience c now e).2.agent_profiles x = none := by
  unfold share_learning_experience
  dsimp only
  rw [(fold_addPending_fields now e _ _).1]
  unfold mapProfileAt
  dsimp only
  rw [lookupAssoc_map_at]
  split
  · show (lookupAssoc c.agent_profiles x).map _ = none
    rw [h]; rfl
  · show lookupAssoc c.agent_profiles x = none
    exact h

theorem learn_preserves_kt (c : Coordinator) (now : Rat) (t : KnowledgeTransfer)
    (h : KeysBound c) :
    KeysBound (learn_from_transfer_success c now t) ∧
    ∀ tid, tid < c.next_id →
      lookupAssoc (learn_from_transfer_success c now t).knowledge_transfers tid =
        lookupAssoc c.knowledge_transfers tid := by
  have h1 : KeysBound { c with next_id := c.next_id + 1 } :=
    fun kv hkv => Nat.lt_succ_of_lt (h kv hkv)
  have h2 := share_preserves_kt { c with next_id := c.next_id + 1 } now
    (metaExp c now t) h1
  exact ⟨h2.1, fun tid ht => h2.2.2 tid (Nat.lt_succ_of_lt ht)⟩

theorem learn_lookup_none (c : Coordinator) (now : Rat) (t : KnowledgeTransfer)
    (x : String) (h : lookupAssoc c.agent_profiles x = none) :
    lookupAssoc (learn_from_transfer_success c now t).agent_profiles x = none := by
  unfold learn_from_transfer_success
  exact share_lookup_none _ now _ x h

/-- The accept branch of `process_knowledge_transfer` on an existing id:
reports `True` and overwrites the stored status with `accepted`, whatever
the previous status was. -/
theorem process_accept_kt (c : Coordinator) (now : Rat) (tid : Nat)
    (t : KnowledgeTransfer)
    (hl : lookupAssoc c.knowledge_transfers tid = some t) (hb : KeysBound c) :
    (process_knowledge_transfer c now tid true).1 = true ∧
    lookupAssoc (process_knowledge_transfer c now tid true).2.knowledge_transfers tid
      = some { t with status := "accepted" } := by
  have htid : tid < c.next_id := hb _ (lookupAssoc_some_mem hl)
  have hb1 := keysBound_setStatus c tid "accepted" hb
  have hb2 : KeysBound (apply_knowledge_to_agent
      { c with knowledge_transfers :=
          setTransferStatus c.knowledge_transfers tid "accepted" }
      { t with status := "accepted" }) := hb1
  have h3 := learn_preserves_kt (apply_knowledge_to_agent
      { c with knowledge_transfers :=
          setTransferStatus c.knowledge_transfers tid "accepted" }
      { t with status := "accepted" }) now { t with status := "accepted" } hb2
  constructor
  · unfold process_knowledge_transfer
    rw [hl]
    rfl
  · unfold process_knowledge_transfer
    rw [hl]
    show lookupAssoc (learn_from_transfer_success (apply_knowledge_to_agent
        { c with knowledge_transfers :=
            setTransferStatus c.knowledge_transfers tid "accepted" }
        { t with status := "accepted" }) now
        { t with status := "accepted" }).knowledge_transfers tid
      = some { t with status := "accepted" }
    rw [h3.2 tid htid]
    show lookupAssoc (setTransferStatus c.knowledge_transfers tid "accepted") tid
      = some { t with status := "accepted" }
    rw [setTransferStatus_lookup_self, hl]
    rfl

/-! ## Claim C10: accepting a transfer to an unregistered receiver -/

/-- C10: processing an existing transfer with `accept=true` when the
receiver is not registered still returns `True` and moves the transfer to
`accepted` (out of `pending`), while no profile is created or modified for
the receiver — its id still resolves to no profile afterwards. -/
theorem C10_theorem :
    ∀ (c : Coordinator) (now : Rat) (tid : Nat) (t : KnowledgeTransfer),
      lookupAssoc c.knowledge_transfers tid = some t →
      lookupAssoc c.agent_profiles t.to_agent = none →
      KeysBound c →
      (process_knowledge_transfer c now tid true).1 = true ∧
      lookupAssoc (process_knowledge_transfer c now tid true).2.knowledge_transfers tid
        = some { t with status := "accepted" } ∧
      lookupAssoc (process_knowledge_transfer c now tid true).2.agent_profiles t.to_agent
        = none := by
  intro c now tid t hl hp hb
  have hkt := process_accept_kt c now tid t hl hb
  refine ⟨hkt.1, hkt.2, ?_⟩
  unfold process_knowledge_transfer
  rw [hl]
  dsimp only [if_pos]
  show lookupAssoc (learn_from_transfer_success _ now _).agent_profiles t.to_agent
      = none
  apply learn_lookup_none
  show lookupAssoc (apply_knowledge_to_agent _ _).agent_profiles t.to_agent = none
  unfold apply_knowledge_to_agent mapProfileAt
  dsimp only
  rw [lookupAssoc_map_at]
  rw [if_pos rfl]
  show (lookupAssoc c.agent_profiles t.to_agent).map _ = none
  rw [hp]
  rfl

/-- A transfer to the unregistered agent `"Z"`, for the C10 witness. -/
def transZ : KnowledgeTransfer :=
  { transfer_id := 0, from_agent := "A", to_agent := "Z"
    knowledge_type := AgentCapability.testing, content := [], confidence := 1
    timestamp := 0, status := "pending" }

/-- A coordinator with one registered agent and one pending transfer to the
unregistered receiver `"Z"`. -/
def cZ : Coordinator :=
  { (register_agent emptyCoordinator 0 "A" "worker" [AgentCapability.testing]).2 with
    knowledge_transfers := [(0, transZ)], next_id := 1 }

/-- C10, witness: the theorem applied to the concrete coordinator `cZ`. -/
theorem C10_witness :
    (process_knowledge_transfer cZ 1 0 true).1 = true ∧
    lookupAssoc (process_knowledge_transfer cZ 1 0 true).2.knowledge_transfers 0
      = some { transZ with status := "accepted" } ∧
    lookupAssoc (process_knowledge_transfer cZ 1 0 true).2.agent_profiles "Z"
      = none := by
  have h := C10_theorem cZ 1 0 transZ rfl rfl (by
    intro kv hkv
    have : kv = (0, transZ) := List.mem_singleton.mp hkv
    rw [this]
    decide)
  exact h

/-! ## Claim C1: transfer status transitions and idempotency -/

/-- The pending transfer from `A` to `B` used to refute C1. -/
def trans0 : KnowledgeTransfer :=
  { transfer_id := 0, from_agent := "A", to_agent := "B"
    knowledge_type := AgentCapability.testing, content := []
    confidence := 1, timestamp := 0, status := "pending" }

/-- The two-agent coordinator with one pending transfer used to refute C1:
`A` holds `testing`, `B` holds `code_review`, transfer `0` is `pending`
from `A` to `B`. -/
def c0 : Coordinator :=
  { (register_agent
      (register_agent emptyCoordinator 0 "A" "worker" [AgentCapability.testing]).2
      0 "B" "worker" [AgentCapability.code_review]).2 with
    knowledge_transfers := [(0, trans0)]
    next_id := 1 }

set_option maxRecDepth 40000 in
/-- C1, counterexample: rejecting transfer `0` and then re-processing it
with `accept=true` is accepted by the code: the second call returns `True`,
moves the status backward from `rejected` to `accepted`, and mutates the
receiving agent's profile (it gains the `testing` capability), so a
terminal transfer is neither frozen nor idempotent under re-processing. -/
theorem C1_counterexample :
    ((lookupAssoc (process_knowledge_transfer c0 1 0 false).2.knowledge_transfers 0).map
        (fun t => t.status) = some "rejected")
    ∧ ((lookupAssoc (process_knowledge_transfer c0 1 0 false).2.agent_profiles "B").map
        (fun p => decide (AgentCapability.testing ∈ p.capabilities)) = some false)
    ∧ (process_knowledge_transfer (process_knowledge_transfer c0 1 0 false).2 2 0 true).1
        = true
    ∧ ((lookupAssoc (process_knowledge_transfer
          (process_knowledge_transfer c0 1 0 false).2 2 0 true).2.knowledge_transfers 0).map
        (fun t => t.status) = some "accepted")
    ∧ ((lookupAssoc (process_knowledge_transfer
          (process_knowledge_transfer c0 1 0 false).2 2 0 true).2.agent_profiles "B").map
        (fun p => decide (AgentCapability.testing ∈ p.capabilities)) = some true) := by
  refine ⟨by decide, by decide, by decide, by decide, by decide⟩

/-- C1, amended: `process_knowledge_transfer` on an existing id always
returns `True` and overwrites the status with `accepted` (re-applying the
receiver effects and recording a fresh meta-experience each time) or
`rejected` according to the flag, regardless of the current status; the
status is never set to `applied`, transitions can go backward
(`rejected → accepted`), and re-processing a terminal transfer is not a
no-op. -/
theorem C1_theorem :
    ∀ (c : Coordinator) (now : Rat) (tid : Nat) (accept : Bool)
      (t : KnowledgeTransfer),
      lookupAssoc c.knowledge_transfers tid = some t →
      KeysBound c →
      (process_knowledge_transfer c now tid accept).1 = true ∧
      lookupAssoc (process_knowledge_transfer c now tid accept).2.knowledge_transfers tid
        = some { t with status := if accept then "accepted" else "rejected" } := by
  intro c now tid accept t hl hb
  cases accept with
  | true => exact process_accept_kt c now tid t hl hb
  | false =>
      unfold process_knowledge_transfer
      rw [hl]
      dsimp only [if_neg]
      refine ⟨rfl, ?_⟩
      show lookupAssoc (setTransferStatus c.knowledge_transfers tid "rejected") tid = _
      rw [setTransferStatus_lookup_self, hl]
      rfl

set_option maxRecDepth 40000 in
/-- C1, witness: the amended theorem applied to the concrete coordinator
`c0`, rejecting the pending transfer. -/
theorem C1_witness :
    (process_knowledge_transfer c0 1 0 false).1 = true ∧
    lookupAssoc (process_knowledge_transfer c0 1 0 false).2.knowledge_transfers 0
      = some { trans0 with status := if false then "accepted" else "rejected" } := by
  have h := C1_theorem c0 1 0 false trans0 rfl (by
    intro kv hkv
    have hm : kv = (0, trans0) := List.mem_singleton.mp hkv
    rw [hm]
    decide)
  exact h

/-! ## Claim C5: profile statistics stay in [0,1] -/

/-- The public coordinator operations, as an operation language for
stating state invariants over arbitrary call sequences. -/
inductive CoordOp where
  | register (now : Rat) (aid atype : String) (caps : List AgentCapability)
  | share (now : Rat) (e : Experience)
  | request (now : Rat) (fromA toA : String) (cap : AgentCapability)
  | process (now : Rat) (tid : Nat) (accept : Bool)

/-- Run one coordinator operation (dropping the returned value). -/
def runOp (c : Coordinator) : CoordOp → Coordinator
  | CoordOp.register now aid atype caps => (register_agent c now aid atype caps).2
  | CoordOp.share now e => (share_learning_experience c now e).2
  | CoordOp.request now fromA toA cap =>
      (request_knowledge_transfer c now fromA toA cap).2
  | CoordOp.process now tid accept =>
      (process_knowledge_transfer c now tid accept).2

/-- The caller-supplied confidence of a shared experience is a probability
(the code never validates this, hence the amendment). -/
def opValid : CoordOp → Prop
  | CoordOp.share _ e => 0 ≤ e.confidence ∧ e.confidence ≤ 1
  | _ => True

/-- All profile statistics of one agent lie in `[0,1]`. -/
def ProfileInRange (p : AgentProfile) : Prop :=
  0 ≤ p.success_rate ∧ p.success_rate ≤ 1 ∧
  0 ≤ p.average_confidence ∧ p.average_confidence ≤ 1 ∧
  0 ≤ p.reputation_score ∧ p.reputation_score ≤ 1

/-- The coordinator-wide range invariant: profile statistics, stored
experience confidences and transfer confidences all lie in `[0,1]`. -/
def CoordInRange (c : Coordinator) : Prop :=
  (∀ kv ∈ c.agent_profiles, ProfileInRange kv.2) ∧
  (∀ e ∈ c.learning_experiences, 0 ≤ e.confidence ∧ e.confidence ≤ 1) ∧
  (∀ kv ∈ c.knowledge_transfers, 0 ≤ kv.2.confidence ∧ kv.2.confidence ≤ 1)

theorem ema_bounds (x y : Rat) (hx0 : 0 ≤ x) (hx1 : x ≤ 1) (hy0 : 0 ≤ y)
    (hy1 : y ≤ 1) :
    0 ≤ (1 - 3/10) * x + (3/10) * y ∧ (1 - 3/10) * x + (3/10) * y ≤ 1 := by
  constructor <;> nlinarith

theorem clamp01_mem (z : Rat) : 0 ≤ min 1 (max 0 z) ∧ min 1 (max 0 z) ≤ 1 :=
  ⟨le_min (by norm_num) (le_max_left 0 z), min_le_left 1 _⟩

theorem updateProfileExp_range (now : Rat) (e : Experience) (p : AgentProfile)
    (hp : ProfileInRange p) (hc : 0 ≤ e.confidence ∧ e.confidence ≤ 1) :
    ProfileInRange (updateProfileExp now e p) := by
  obtain ⟨h1, h2, h3, h4, h5, h6⟩ := hp
  unfold updateProfileExp ProfileInRange
  dsimp only
  refine ⟨?_, ?_, ?_, ?_, ?_, ?_⟩
  · split
    · split <;> norm_num
    · exact (ema_bounds _ _ h1 h2 (by split <;> norm_num)
        (by split <;> norm_num)).1
  · split
    · split <;> norm_num
    · exact (ema_bounds _ _ h1 h2 (by split <;> norm_num)
        (by split <;> norm_num)).2
  · split
    · exact hc.1
    · exact (ema_bounds _ _ h3 h4 hc.1 hc.2).1
  · split
    · exact hc.2
    · exact (ema_bounds _ _ h3 h4 hc.1 hc.2).2
  · exact (clamp01_mem _).1
  · exact (clamp01_mem _).2

theorem insertAssoc_mem {α β : Type} [DecidableEq α]
    {l : List (α × β)} {k : α} {v : β} {kv : α × β}
    (h : kv ∈ insertAssoc l k v) : kv ∈ l ∨ kv = (k, v) := by
  unfold insertAssoc at h
  split at h
  · rcases List.mem_map.mp h with ⟨kv0, h0, heq⟩
    rw [← heq]
    by_cases hk : kv0.1 = k
    · rw [if_pos hk]; right; rfl
    · rw [if_neg hk]; left; exact h0
  · rcases List.mem_append.mp h with h0 | h0
    · left; exact h0
    · right; exact List.mem_singleton.mp h0

theorem updAssoc_mem {α β : Type} [DecidableEq α]
    {l : List (α × β)} {k : α} {f : β → β} {kv : α × β}
    (h : kv ∈ updAssoc l k f) : ∃ kv0 ∈ l, kv.2 = kv0.2 ∨ kv.2 = f kv0.2 := by
  unfold updAssoc at h
  rcases List.mem_map.mp h with ⟨kv0, h0, heq⟩
  refine ⟨kv0, h0, ?_⟩
  rw [← heq]
  split
  · right; rfl
  · left; rfl

theorem pushExperience_mem {l : List Experience} {e e' : Experience}
    (h : e' ∈ pushExperience l e) : e' ∈ l ∨ e' = e := by
  unfold pushExperience at h
  rcases List.mem_append.mp h with h0 | h0
  · left
    split at h0
    · exact (List.tail_sublist l).subset h0
    · exact h0
  · right; exact List.mem_singleton.mp h0

theorem addPending_range (c : Coordinator) (now : Rat) (e : Experience)
    (a : String) (h : CoordInRange c) (hc : 0 ≤ e.confidence ∧ e.confidence ≤ 1) :
    CoordInRange (addPendingTransfer c now e a) := by
  refine ⟨h.1, h.2.1, ?_⟩
  intro kv hkv
  unfold addPendingTransfer at hkv
  dsimp only at hkv
  rcases insertAssoc_mem hkv with h0 | h0
  · exact h.2.2 kv h0
  · rw [h0]; exact hc

theorem fold_addPending_range (now : Rat) (e : Experience) (rel : List String)
    (c : Coordinator) (h : CoordInRange c)
    (hc : 0 ≤ e.confidence ∧ e.confidence ≤ 1) :
    CoordInRange (rel.foldl (fun st aid =>
      if aid = e.agent_id then st else addPendingTransfer st now e aid) c) := by
  induction rel generalizing c with
  | nil => exact h
  | cons a rel ih =>
      rw [List.foldl_cons]
      by_cases ha : a = e.agent_id
      · rw [if_pos ha]; exact ih c h
      · rw [if_neg ha]; exact ih _ (addPending_range c now e a h hc)

theorem share_range (c : Coordinator) (now : Rat) (e : Experience)
    (h : CoordInRange c) (hc : 0 ≤ e.confidence ∧ e.confidence ≤ 1) :
    CoordInRange (share_learning_experience c now e).2 := by
  have h1 : CoordInRange
      { c with learning_experiences := pushExperience c.learning_experiences e } := by
    refine ⟨h.1, ?_, h.2.2⟩
    intro e' he'
    rcases pushExperience_mem he' with h0 | h0
    · exact h.2.1 e' h0
    · rw [h0]; exact hc
  have h2 : CoordInRange (mapProfileAt
      { c with learning_experiences := pushExperience c.learning_experiences e }
      e.agent_id (updateProfileExp now e)) := by
    refine ⟨?_, h1.2.1, h1.2.2⟩
    intro kv hkv
    rcases updAssoc_mem hkv with ⟨kv0, h0, heq | heq⟩
    · rw [heq]; exact h1.1 kv0 h0
    · rw [heq]; exact updateProfileExp_range now e kv0.2 (h1.1 kv0 h0) hc
  have h3 := fold_addPending_range now e
    (find_relevant_agents (mapProfileAt
      { c with learning_experiences := pushExperience c.learning_experiences e }
      e.agent_id (updateProfileExp now e)) e)
    (mapProfileAt
      { c with learning_experiences := pushExperience c.learning_experiences e }
      e.agent_id (updateProfileExp now e))
    h2 hc
  exact h3

theorem list_sum_le_length (l : List Rat) (h : ∀ x ∈ l, x ≤ 1) :
    l.sum ≤ (l.length : Rat) := by
  induction l with
  | nil => simp
  | cons a l ih =>
      simp only [List.sum_cons, List.length_cons]
      push_cast
      have ha := h a (List.mem_cons_self a l)
      have hl := ih (fun x hx => h x (List.mem_cons_of_mem a hx))
      linarith

theorem request_range (c : Coordinator) (now : Rat) (fromA toA : String)
    (cap : AgentCapability) (h : CoordInRange c) :
    CoordInRange (request_knowledge_transfer c now fromA toA cap).2 := by
  unfold request_knowledge_transfer
  dsimp only
  split
  · exact h
  · rename_i hne
    refine ⟨h.1, h.2.1, ?_⟩
    intro kv hkv
    have hcand : ∀ x ∈ requestCandidates c fromA cap,
        0 ≤ x.confidence ∧ x.confidence ≤ 1 := by
      intro x hx
      exact h.2.1 x (List.mem_of_mem_filter hx)
    have hlenpos : 0 < (requestCandidates c fromA cap).length :=
      List.length_pos.mpr hne
    have hmean0 : 0 ≤ ((requestCandidates c fromA cap).map
        (fun e => e.confidence)).sum / ((requestCandidates c fromA cap).length : Rat) := by
      apply div_nonneg
      · apply List.sum_nonneg
        intro x hx
        rcases List.mem_map.mp hx with ⟨e0, he0, rfl⟩
        exact (hcand e0 he0).1
      · exact_mod_cast Nat.zero_le _
    have hmean1 : ((requestCandidates c fromA cap).map
        (fun e => e.confidence)).sum / ((requestCandidates c fromA cap).length : Rat) ≤ 1 := by
      rw [div_le_one (by exact_mod_cast hlenpos)]
      have := list_sum_le_length ((requestCandidates c fromA cap).map
        (fun e => e.confidence)) (by
          intro x hx
          rcases List.mem_map.mp hx with ⟨e0, he0, rfl⟩
          exact (hcand e0 he0).2)
      simpa using this
    rcases insertAssoc_mem hkv with h0 | h0
    · exact h.2.2 kv h0
    · rw [h0]; exact ⟨hmean0, hmean1⟩

theorem setStatus_range (c : Coordinator) (tid : Nat) (st : String)
    (h : CoordInRange c) :
    CoordInRange
      { c with knowledge_transfers := setTransferStatus c.knowledge_transfers tid st } := by
  refine ⟨h.1, h.2.1, ?_⟩
  intro kv hkv
  have hkv2 : kv ∈ updAssoc c.knowledge_transfers tid
      (fun t => { t with status := st }) := hkv
  rcases updAssoc_mem hkv2 with ⟨kv0, h0, heq | heq⟩
  · rw [heq]; exact h.2.2 kv0 h0
  · have : kv.2.confidence = kv0.2.confidence := by rw [heq]
    rw [this]; exact h.2.2 kv0 h0

theorem apply_knowledge_range (c : Coordinator) (t : KnowledgeTransfer)
    (h : CoordInRange c) : CoordInRange (apply_knowledge_to_agent c t) := by
  refine ⟨?_, h.2.1, h.2.2⟩
  intro kv hkv
  have hkv2 : kv ∈ updAssoc c.agent_profiles t.to_agent (fun p =>
      { p with
        capabilities :=
          if t.knowledge_type ∈ p.capabilities then p.capabilities
          else p.capabilities ++ [t.knowledge_type]
        specializations :=
          if t.knowledge_type.value ∈ p.specializations then p.specializations
          else p.specializations ++ [t.knowledge_type.value]
        reputation_score := min 1 (p.reputation_score + 1/20) }) := hkv
  rcases updAssoc_mem hkv2 with ⟨kv0, h0, heq | heq⟩
  · rw [heq]; exact h.1 kv0 h0
  · have hp := h.1 kv0 h0
    obtain ⟨h1, h2, h3, h4, h5, h6⟩ := hp
    rw [heq]
    refine ⟨h1, h2, h3, h4, ?_, ?_⟩
    · exact le_min (by norm_num) (by linarith)
    · exact min_le_left 1 _

theorem learn_range (c : Coordinator) (now : Rat) (t : KnowledgeTransfer)
    (h : CoordInRange c) (hconf : 0 ≤ t.confidence ∧ t.confidence ≤ 1) :
    CoordInRange (learn_from_transfer_success c now t) := by
  unfold learn_from_transfer_success
  have h1 : CoordInRange { c with next_id := c.next_id + 1 } :=
    ⟨h.1, h.2.1, h.2.2⟩
  exact share_range { c with next_id := c.next_id + 1 } now
    (metaExp c now t) h1 hconf

theorem process_range (c : Coordinator) (now : Rat) (tid : Nat) (accept : Bool)
    (h : CoordInRange c) :
    CoordInRange (process_knowledge_transfer c now tid accept).2 := by
  unfold process_knowledge_transfer
  cases hl : lookupAssoc c.knowledge_transfers tid with
  | none => exact h
  | some t =>
      dsimp only
      cases accept with
      | false =>
          have h1 := setStatus_range c tid "rejected" h
          exact ⟨h1.1, h1.2.1, h1.2.2⟩
      | true =>
          have hconf : 0 ≤ t.confidence ∧ t.confidence ≤ 1 :=
            h.2.2 (tid, t) (lookupAssoc_some_mem hl)
          have h1 := setStatus_range c tid "accepted" h
          have h2 := apply_knowledge_range _ { t with status := "accepted" } h1
          have h3 := learn_range _ now { t with status := "accepted" } h2 hconf
          exact ⟨h3.1, h3.2.1, h3.2.2⟩

theorem foldl_runOp_range (ops : List CoordOp) (c : Coordinator)
    (h : CoordInRange c) (hv : ∀ op ∈ ops, opValid op) :
    CoordInRange (ops.foldl runOp c) := by
  induction ops generalizing c with
  | nil => exact h
  | cons op ops ih =>
      rw [List.foldl_cons]
      apply ih
      · cases op with
        | register now aid atype caps =>
            refine ⟨?_, h.2.1, h.2.2⟩
            intro kv hkv
            rcases insertAssoc_mem hkv with h0 | h0
            · exact h.1 kv h0
            · rw [h0]
              unfold ProfileInRange
              norm_num
        | share now e =>
            exact share_range c now e h (hv _ (List.mem_cons_self _ _))
        | request now fromA toA cap => exact request_range c now fromA toA cap h
        | process now tid accept => exact process_range c now tid accept h
      · intro op2 hop2
        exact hv op2 (List.mem_cons_of_mem _ hop2)

/-- An experience with an out-of-range confidence of 2. -/
def badExp : Experience :=
  { experience_id := 0, agent_id := "A", capability := AgentCapability.testing
    contextStr := "c", ctx := ⟨none, none, none⟩
    success := true, confidence := 2, timestamp := 1 }

/-- C5, counterexample: the code never validates confidences, so sharing a
first experience with confidence 2 sets the agent's `average_confidence`
directly to 2, outside `[0,1]`. -/
theorem C5_counterexample :
    ((lookupAssoc (share_learning_experience
        (register_agent emptyCoordinator 0 "A" "w" [AgentCapability.testing]).2
        1 badExp).2.agent_profiles "A").map
      (fun p => p.average_confidence) = some 2)
    ∧ ¬ ((2 : Rat) ≤ 1) := by
  constructor
  · decide
  · decide

/-- C5, amended: provided every shared experience's confidence lies in
`[0,1]`, each registered agent's `success_rate`, `average_confidence` and
`reputation_score` lie in `[0,1]` after every operation sequence (register,
share, request, process) from a fresh coordinator: the first experience
sets rate and confidence directly to the observed values, later ones update
them by an EMA with alpha 0.3 (a convex combination), and every reputation
update is clamped into `[0,1]`. -/
theorem C5_theorem :
    ∀ (ops : List CoordOp), (∀ op ∈ ops, opValid op) →
      ∀ kv ∈ (ops.foldl runOp emptyCoordinator).agent_profiles,
        0 ≤ kv.2.success_rate ∧ kv.2.success_rate ≤ 1 ∧
        0 ≤ kv.2.average_confidence ∧ kv.2.average_confidence ≤ 1 ∧
        0 ≤ kv.2.reputation_score ∧ kv.2.reputation_score ≤ 1 := by
  intro ops hv kv hkv
  have hempty : CoordInRange emptyCoordinator := by
    refine ⟨?_, ?_, ?_⟩ <;> intro x hx <;> cases hx
  exact (foldl_runOp_range ops emptyCoordinator hempty hv).1 kv hkv

/-- The single-register operation list for the C5 witness. -/
def opsW : List CoordOp := [CoordOp.register 0 "A" "w" [AgentCapability.testing]]

/-- C5, witness: the amended theorem applied to a single registration; the
fresh profile's statistics are within range. -/
theorem C5_witness :
    0 ≤ (register_agent emptyCoordinator 0 "A" "w" [AgentCapability.testing]).1.success_rate ∧
    (register_agent emptyCoordinator 0 "A" "w" [AgentCapability.testing]).1.success_rate ≤ 1 ∧
    0 ≤ (register_agent emptyCoordinator 0 "A" "w" [AgentCapability.testing]).1.average_confidence ∧
    (register_agent emptyCoordinator 0 "A" "w" [AgentCapability.testing]).1.average_confidence ≤ 1 ∧
    0 ≤ (register_agent emptyCoordinator 0 "A" "w" [AgentCapability.testing]).1.reputation_score ∧
    (register_agent emptyCoordinator 0 "A" "w" [AgentCapability.testing]).1.reputation_score ≤ 1 := by
  have h := C5_theorem opsW
    (by
      intro op hop
      rcases List.mem_singleton.mp hop with rfl
      exact trivial)
    ("A", (register_agent emptyCoordinator 0 "A" "w" [AgentCapability.testing]).1)
    (List.mem_singleton.mpr rfl)
  exact h

/-! ## Claim C6: accepting a transfer applies it to the receiver -/

/-- Full effect of the accept branch on a registered receiver distinct from
the sender: status overwritten to `accepted`, capability and specialization
added, reputation raised by `0.05` capped at `1.0`, and a successful
meta-experience authored by the sender appended to the experience store. -/
theorem process_accept_effects (c : Coordinator) (now : Rat) (tid : Nat)
    (t : KnowledgeTransfer) (p : AgentProfile)
    (hl : lookupAssoc c.knowledge_transfers tid = some t)
    (hp : lookupAssoc c.agent_profiles t.to_agent = some p)
    (hne : t.from_agent ≠ t.to_agent) (hb : KeysBound c) :
    (process_knowledge_transfer c now tid true).1 = true ∧
    lookupAssoc (process_knowledge_transfer c now tid true).2.knowledge_transfers tid
      = some { t with status := "accepted" } ∧
    (∃ p2, lookupAssoc (process_knowledge_transfer c now tid true).2.agent_profiles t.to_agent
        = some p2 ∧
      t.knowledge_type ∈ p2.capabilities ∧
      t.knowledge_type.value ∈ p2.specializations ∧
      p2.reputation_score = min 1 (p.reputation_score + 1/20)) ∧
    (∃ me, (process_knowledge_transfer c now tid true).2.learning_experiences.getLast?
        = some me ∧
      me.agent_id = t.from_agent ∧ me.capability = t.knowledge_type ∧
      me.success = true ∧ me.confidence = t.confidence) := by
  have hkt := process_accept_kt c now tid t hl hb
  refine ⟨hkt.1, hkt.2, ?_, ?_⟩
  · refine ⟨{ p with
        capabilities :=
          if t.knowledge_type ∈ p.capabilities then p.capabilities
          else p.capabilities ++ [t.knowledge_type]
        specializations :=
          if t.knowledge_type.value ∈ p.specializations then p.specializations
          else p.specializations ++ [t.knowledge_type.value]
        reputation_score := min 1 (p.reputation_score + 1/20) }, ?_, ?_, ?_, rfl⟩
    · unfold process_knowledge_transfer
      rw [hl]
      show lookupAssoc (learn_from_transfer_success (apply_knowledge_to_agent
          { c with knowledge_transfers :=
              setTransferStatus c.knowledge_transfers tid "accepted" }
          { t with status := "accepted" }) now
          { t with status := "accepted" }).agent_profiles t.to_agent = _
      have hshare : ∀ (c2 : Coordinator) (now2 : Rat) (e : Experience),
          e.agent_id ≠ t.to_agent →
          lookupAssoc (share_learning_experience c2 now2 e).2.agent_profiles t.to_agent
            = lookupAssoc c2.agent_profiles t.to_agent := by
        intro c2 now2 e hea
        unfold share_learning_experience
        dsimp only
        rw [(fold_addPending_fields now2 e _ _).1]
        unfold mapProfileAt
        dsimp only
        rw [lookupAssoc_map_at, if_neg (fun h0 => hea h0.symm)]
      unfold learn_from_transfer_success
      rw [hshare _ now _ hne]
      show lookupAssoc (apply_knowledge_to_agent
          { c with knowledge_transfers :=
              setTransferStatus c.knowledge_transfers tid "accepted" }
          { t with status := "accepted" }).agent_profiles t.to_agent = _
      unfold apply_knowledge_to_agent mapProfileAt
      dsimp only
      rw [lookupAssoc_map_at, if_pos rfl]
      show (lookupAssoc c.agent_profiles t.to_agent).map _ = _
      rw [hp]
      rfl
    · show t.knowledge_type ∈ (if t.knowledge_type ∈ p.capabilities
          then p.capabilities else p.capabilities ++ [t.knowledge_type])
      split
      · rename_i hmem; exact hmem
      · exact List.mem_append.mpr (Or.inr (List.mem_singleton.mpr rfl))
    · show t.knowledge_type.value ∈ (if t.knowledge_type.value ∈ p.specializations
          then p.specializations else p.specializations ++ [t.knowledge_type.value])
      split
      · rename_i hmem; exact hmem
      · exact List.mem_append.mpr (Or.inr (List.mem_singleton.mpr rfl))
  · refine ⟨metaExp
        (apply_knowledge_to_agent
          { c with knowledge_transfers := setTransferStatus c.knowledge_transfers tid "accepted" }
          { t with status := "accepted" })
        now { t with status := "accepted" }, ?_, rfl, rfl, rfl, rfl⟩
    unfold process_knowledge_transfer
    rw [hl]
    show (learn_from_transfer_success (apply_knowledge_to_agent
        { c with knowledge_transfers :=
            setTransferStatus c.knowledge_transfers tid "accepted" }
        { t with status := "accepted" }) now
        { t with status := "accepted" }).learning_experiences.getLast? = _
    unfold learn_from_transfer_success
    rw [share_experiences_eq]
    unfold pushExperience
    exact List.getLast?_concat _

/-- Three successful testing experiences shared by agent `A` at confidence
0.9 (the §8 scenario stream). -/
def scenExp (i : Nat) : Experience :=
  { experience_id := 100 + i, agent_id := "A", capability := AgentCapability.testing
    contextStr := "ctx", ctx := ⟨none, none, none⟩
    success := true, confidence := 9/10, timestamp := (i : Rat) }

/-- Agents `A` (testing) and `B` (code_review) registered. -/
def scen0 : Coordinator :=
  (register_agent
    (register_agent emptyCoordinator 0 "A" "tester" [AgentCapability.testing]).2
    0 "B" "reviewer" [AgentCapability.code_review]).2

/-- The coordinator after `A` shared its three testing experiences. -/
def scenShared : Coordinator :=
  [scenExp 1, scenExp 2, scenExp 3].foldl
    (fun c e => (share_learning_experience c e.timestamp e).2) scen0

/-- `B`'s freshly registered profile. -/
def regB : AgentProfile :=
  { agent_id := "B", agent_type := "reviewer"
    capabilities := [AgentCapability.code_review], experience_count := 0
    success_rate := 0, average_confidence := 0, specializations := []
    collaboration_history := [], last_active := 0, reputation_score := 1/2 }

/-- The request `A → B` for the testing capability, on the shared state. -/
def scenReqRes : Option Nat × Coordinator :=
  request_knowledge_transfer scenShared 5 "A" "B" AgentCapability.testing

theorem scen_candidates :
    requestCandidates scenShared "A" AgentCapability.testing
      = [scenExp 1, scenExp 2, scenExp 3] := by
  show List.filter _ [scenExp 1, scenExp 2, scenExp 3] = _
  simp only [List.filter_cons, List.filter_nil, scenExp]
  norm_num

theorem scen_request :
    scenReqRes.1 = some 0 ∧
    ∃ t, lookupAssoc scenReqRes.2.knowledge_transfers 0 = some t ∧
      t.from_agent = "A" ∧ t.to_agent = "B" ∧
      t.knowledge_type = AgentCapability.testing ∧ t.status = "pending" := by
  unfold scenReqRes request_knowledge_transfer
  rw [scen_candidates]
  rw [if_neg (by simp)]
  refine ⟨rfl, ?_⟩
  exact ⟨_, rfl, rfl, rfl, rfl, rfl⟩

theorem scen_kt_shape : ∃ t, scenReqRes.2.knowledge_transfers = [(0, t)] := by
  unfold scenReqRes request_knowledge_transfer
  rw [scen_candidates, if_neg (by simp)]
  exact ⟨_, rfl⟩

theorem scen_next_id : scenReqRes.2.next_id = 1 := by
  unfold scenReqRes request_knowledge_transfer
  rw [scen_candidates, if_neg (by simp)]
  rfl

theorem scen_keysBound : KeysBound scenReqRes.2 := by
  obtain ⟨t, ht⟩ := scen_kt_shape
  intro kv hkv
  rw [ht] at hkv
  rcases List.mem_singleton.mp hkv with rfl
  rw [scen_next_id]
  exact Nat.lt_succ_self 0

theorem scen_profileB :
    lookupAssoc scenReqRes.2.agent_profiles "B" = some regB := by
  unfold scenReqRes request_knowledge_transfer
  rw [scen_candidates, if_neg (by simp)]
  rfl

set_option maxRecDepth 40000 in
/-- C6, counterexample: after the full §8 scenario (register `A`/`B`, share
three successful testing experiences, request the transfer and process it
with `accept=true`), the transfer's status is `accepted`, not `applied` as
the claim states — the code never assigns the `applied` status. -/
theorem C6_counterexample :
    ((lookupAssoc (process_knowledge_transfer scenReqRes.2 6 0 true).2.knowledge_transfers 0).map
      (fun t => t.status) = some "accepted")
    ∧ ("accepted" : String) ≠ "applied" := by
  obtain ⟨hid, t, hl, hfrom, hto, hkt, hst⟩ := scen_request
  have h := process_accept_kt scenReqRes.2 6 0 t hl scen_keysBound
  refine ⟨?_, by decide⟩
  rw [h.2]
  rfl

set_option maxRecDepth 40000 in
/-- C6, amended: processing a pending transfer with `accept=true` for a
registered receiver adds the transferred capability to the receiver's
capability set and specializations, raises its reputation by `0.05` capped
at `1.0`, sets the transfer's status to `accepted` (the code never assigns
`applied`), and records a successful meta-experience authored by the
sender; in the concrete scenario (agent `A` with `{testing}` shares three
successful testing experiences at confidence 0.9, then
`request_knowledge_transfer(A, B, testing)`), the request returns the
non-null id 0, processing it with `accept=true` returns `True`, and leaves
`B`'s capabilities containing `testing` with `B`'s reputation strictly
above 0.5. -/
theorem C6_theorem :
    (∀ (c : Coordinator) (now : Rat) (tid : Nat) (t : KnowledgeTransfer)
      (p : AgentProfile),
      lookupAssoc c.knowledge_transfers tid = some t →
      lookupAssoc c.agent_profiles t.to_agent = some p →
      t.from_agent ≠ t.to_agent → KeysBound c →
      (process_knowledge_transfer c now tid true).1 = true ∧
      lookupAssoc (process_knowledge_transfer c now tid true).2.knowledge_transfers tid
        = some { t with status := "accepted" } ∧
      (∃ p2, lookupAssoc (process_knowledge_transfer c now tid true).2.agent_profiles t.to_agent
          = some p2 ∧
        t.knowledge_type ∈ p2.capabilities ∧
        t.knowledge_type.value ∈ p2.specializations ∧
        p2.reputation_score = min 1 (p.reputation_score + 1/20)) ∧
      (∃ me, (process_knowledge_transfer c now tid true).2.learning_experiences.getLast?
          = some me ∧
        me.agent_id = t.from_agent ∧ me.capability = t.knowledge_type ∧
        me.success = true ∧ me.confidence = t.confidence))
    ∧ scenReqRes.1 = some 0
    ∧ (process_knowledge_transfer scenReqRes.2 6 0 true).1 = true
    ∧ (∃ p2, lookupAssoc
          (process_knowledge_transfer scenReqRes.2 6 0 true).2.agent_profiles "B"
        = some p2 ∧
      AgentCapability.testing ∈ p2.capabilities ∧
      (1 : Rat)/2 < p2.reputation_score) := by
  obtain ⟨hid, t, hl, hfrom, hto, hkt, hst⟩ := scen_request
  have heff := process_accept_effects scenReqRes.2 6 0 t regB hl
    (by rw [hto]; exact scen_profileB)
    (by rw [hfrom, hto]; decide) scen_keysBound
  refine ⟨process_accept_effects, hid, heff.1, ?_⟩
  obtain ⟨p2, hp2, hcap, hspec, hrep⟩ := heff.2.2.1
  refine ⟨p2, by rw [← hto]; exact hp2, by rw [← hkt]; exact hcap, ?_⟩
  rw [hrep]
  show (1 : Rat)/2 < min 1 (regB.reputation_score + 1/20)
  have : regB.reputation_score = 1/2 := rfl
  rw [this]
  norm_num

/-- C6, witness: the general effects conjunct applied to the concrete
coordinator `c0` and its pending transfer. -/
theorem C6_witness :
    (process_knowledge_transfer c0 3 0 true).1 = true ∧
    lookupAssoc (process_knowledge_transfer c0 3 0 true).2.knowledge_transfers 0
      = some { trans0 with status := "accepted" } := by
  have h := C6_theorem.1 c0 3 0 trans0
    { agent_id := "B", agent_type := "worker"
      capabilities := [AgentCapability.code_review], experience_count := 0
      success_rate := 0, average_confidence := 0, specializations := []
      collaboration_history := [], last_active := 0, reputation_score := 1/2 }
    rfl rfl (by decide)
    (by
      intro kv hkv
      have hm : kv = (0, trans0) := List.mem_singleton.mp hkv
      rw [hm]
      decide)
  exact ⟨h.1, h.2.1⟩

/-! ## Claim C4: solution ranking and threshold -/

/-- The claim's composite formula, stated in the spec's own shape:
`0.6*success_rate + 0.3*recency_score + 0.1*max(0, 1 − avg_time/3600)`. -/
def spec_composite (st : SolStats) : Rat :=
  (6/10) * successRate st + (3/10) * recencyScore st +
    (1/10) * max 0 (1 - avgExecTime st / 3600)

theorem spec_composite_eq (st : SolStats) :
    spec_composite st = compositeScore st := by
  unfold spec_composite compositeScore
  ring

theorem foldl_max_spec (f : String → Rat) (xs : List String) (b : String) :
    (xs.foldl (fun b a => if f b < f a then a else b) b = b ∨
      xs.foldl (fun b a => if f b < f a then a else b) b ∈ xs) ∧
    f b ≤ f (xs.foldl (fun b a => if f b < f a then a else b) b) ∧
    ∀ y ∈ xs, f y ≤ f (xs.foldl (fun b a => if f b < f a then a else b) b) := by
  induction xs generalizing b with
  | nil => exact ⟨Or.inl rfl, le_refl _, fun y hy => absurd hy (List.not_mem_nil y)⟩
  | cons a xs ih =>
      simp only [List.foldl_cons]
      have hstep := ih (if f b < f a then a else b)
      have hble : f b ≤ f (if f b < f a then a else b) := by
        split
        · rename_i hlt; exact le_of_lt hlt
        · exact le_refl _
      have hale : f a ≤ f (if f b < f a then a else b) := by
        split
        · exact le_refl _
        · rename_i hnlt; exact le_of_not_lt hnlt
      refine ⟨?_, le_trans hble hstep.2.1, ?_⟩
      · rcases hstep.1 with h0 | h0
        · rw [h0]
          split
          · right; exact List.mem_cons_self _ _
          · left; rfl
        · right; exact List.mem_cons_of_mem a h0
      · intro y hy
        rcases List.mem_cons.mp hy with rfl | hy2
        · exact le_trans hale hstep.2.1
        · exact hstep.2.2 y hy2

theorem selectTop_spec (f : String → Rat) (l : List String) (x : String)
    (h : selectTop f l = some x) : x ∈ l ∧ ∀ y ∈ l, f y ≤ f x := by
  cases l with
  | nil => exact absurd h (by simp [selectTop])
  | cons k ks =>
      have hx : ks.foldl (fun b a => if f b < f a then a else b) k = x :=
        Option.some.inj h
      have hspec := foldl_max_spec f ks k
      rw [hx] at hspec
      constructor
      · rcases hspec.1 with h0 | h0
        · rw [← h0]; exact List.mem_cons_self _ _
        · exact List.mem_cons_of_mem k h0
      · intro y hy
        rcases List.mem_cons.mp hy with rfl | hy2
        · exact hspec.2.1
        · exact hspec.2.2 y hy2

/-- A deployment record for key `"K"` with solution `"S"`. -/
def mkKS (b : Bool) : DeploymentData :=
  { error_type := some (PyVal.vStr "K"), solution := some "S"
    success := some (PyVal.vBool b), timestamp := 0, execTime := none }

/-- Learner state after 3 successes and 1 failure of `"S"` on `"K"`. -/
def fourPLS : PLS := runLearn emptyPLS [mkKS true, mkKS true, mkKS true, mkKS false]

/-- Learner state after 1 success and 1 failure of `"S"` on `"K"`. -/
def twoPLS : PLS := runLearn emptyPLS [mkKS true, mkKS false]

/-- The stored success entry for `"S"`. -/
def entryS : Pattern :=
  { solution := some "S", success := true, timestamp := 0, execTime := none }

/-- The stored failure entry for `"S"`. -/
def entryF : Pattern :=
  { solution := some "S", success := false, timestamp := 0, execTime := none }

theorem statsStep_S_entryS (st : SolStats) :
    statsStep 0 "S" st entryS =
      { count := st.count + 1, success_count := st.success_count + 1
        total_execution_time := st.total_execution_time
        recent_count := st.recent_count + 1 } := by
  unfold statsStep
  rw [show validSol entryS = some "S" from by decide]
  norm_num [entryS, THIRTY_DAYS]

theorem statsStep_S_entryF (st : SolStats) :
    statsStep 0 "S" st entryF =
      { count := st.count + 1, success_count := st.success_count
        total_execution_time := st.total_execution_time
        recent_count := st.recent_count + 1 } := by
  unfold statsStep
  rw [show validSol entryF = some "S" from by decide]
  norm_num [entryF, THIRTY_DAYS]

theorem fourPLS_stats :
    statsFor 0 (fourPLS.error_database "K" ++ fourPLS.success_patterns "K") "S"
      = ⟨4, 3, 0, 4⟩ := by
  show statsFor 0 [entryF, entryS, entryS, entryS] "S" = _
  unfold statsFor
  simp only [List.foldl_cons, List.foldl_nil, statsStep_S_entryS, statsStep_S_entryF]

theorem twoPLS_stats :
    statsFor 0 (twoPLS.error_database "K" ++ twoPLS.success_patterns "K") "S"
      = ⟨2, 1, 0, 2⟩ := by
  show statsFor 0 [entryF, entryS] "S" = _
  unfold statsFor
  simp only [List.foldl_cons, List.foldl_nil, statsStep_S_entryS, statsStep_S_entryF]

/-- C4: `suggest_solution` scores every recorded solution for the key that
is neither empty nor `"unknown"` by the composite
`0.6*success_rate + 0.3*recency_score + 0.1*max(0, 1 − avg_time/3600)` and
returns the top-composite solution only when that solution's success rate
is at least `0.7`, else `None`; on a key with no recorded history it
returns `None`.  Concretely: three successes and one failure of `"S"`
(rate 3/4 ≥ 0.7) yield `some "S"`, one success and one failure
(rate 1/2 < 0.7) yield `None`. -/
theorem C4_theorem :
    (∀ (s : PLS) (now : Rat) (key : String),
      s.error_database key = [] → s.success_patterns key = [] →
      suggest_solution s now key = none) ∧
    (∀ (s : PLS) (now : Rat) (key : String) (sol : String),
      suggest_solution s now key = some sol →
      sol ∈ solutionKeys (s.error_database key ++ s.success_patterns key) ∧
      MIN_SUCCESS_RATE ≤
        successRate (statsFor now (s.error_database key ++ s.success_patterns key) sol) ∧
      ∀ s2 ∈ solutionKeys (s.error_database key ++ s.success_patterns key),
        spec_composite (statsFor now (s.error_database key ++ s.success_patterns key) s2) ≤
          spec_composite (statsFor now (s.error_database key ++ s.success_patterns key) sol)) ∧
    suggest_solution fourPLS 0 "K" = some "S" ∧
    suggest_solution twoPLS 0 "K" = none := by
  refine ⟨?_, ?_, ?_, ?_⟩
  · intro s now key h1 h2
    unfold suggest_solution
    rw [if_pos ⟨h1, h2⟩]
  · intro s now key sol h
    unfold suggest_solution at h
    split at h
    · exact absurd h (by simp)
    · dsimp only at h
      cases hsel : selectTop
          (fun sol => compositeScore (statsFor now
            (s.error_database key ++ s.success_patterns key) sol))
          (solutionKeys (s.error_database key ++ s.success_patterns key)) with
      | none =>
          rw [hsel] at h
          exact absurd h (by simp)
      | some best =>
          rw [hsel] at h
          dsimp only at h
          split at h
          · rename_i hthr
            have hbs : best = sol := Option.some.inj h
            subst hbs
            have hspec := selectTop_spec _ _ _ hsel
            refine ⟨hspec.1, hthr, ?_⟩
            intro s2 hs2
            rw [spec_composite_eq, spec_composite_eq]
            exact hspec.2 s2 hs2
          · exact absurd h (by simp)
  · show (if MIN_SUCCESS_RATE ≤ successRate (statsFor 0
        (fourPLS.error_database "K" ++ fourPLS.success_patterns "K") "S")
      then some "S" else none) = some "S"
    rw [fourPLS_stats]
    rw [if_pos (by norm_num [MIN_SUCCESS_RATE, successRate])]
  · show (if MIN_SUCCESS_RATE ≤ successRate (statsFor 0
        (twoPLS.error_database "K" ++ twoPLS.success_patterns "K") "S")
      then some "S" else none) = none
    rw [twoPLS_stats]
    rw [if_neg (by norm_num [MIN_SUCCESS_RATE, successRate])]

/-- C4, witness: the no-history conjunct applied to the empty learner. -/
theorem C4_witness : suggest_solution emptyPLS 0 "missing-key" = none :=
  C4_theorem.1 emptyPLS 0 "missing-key" rfl rfl

end Factory
